import Mathlib

/-!
Shallow embedding of the stockwise-receipt local persistence core:
the storage service with its zod schema validation, the product /
counter / audit / sales managers, and the backup snapshot engine
(aggregation, checksum, validation, restore, import).

All JavaScript numbers that the embedded code stores are integers in
the source's own schemas (`z.number().int()` on stock, quantity and the
reversal window; prices are only ever added and multiplied), so numbers
are modelled as `Int`.  Fallible storage calls return an explicit
result value.  Environment-supplied values (generated UUIDs, the
current time, `Date` parsing) are passed in as explicit parameters.
-/

namespace JsNum

/-- 2^32, the modulus of JavaScript's 32-bit integer coercions. -/
def pow32 : Nat := 4294967296

/-- Fuel-based bitwise xor of two words, least-significant bit first. -/
def xorAux : Nat → Nat → Nat → Nat
  | 0, _, _ => 0
  | k+1, a, b => (a + b) % 2 + 2 * xorAux k (a / 2) (b / 2)

/-- Fuel-based bitwise xor of three words in one pass. -/
def xor3Aux : Nat → Nat → Nat → Nat → Nat
  | 0, _, _, _ => 0
  | k+1, a, b, c => (a + b + c) % 2 + 2 * xor3Aux k (a / 2) (b / 2) (c / 2)

/-- Fuel-based bitwise choice, the SHA-256 `Ch` function, in one pass. -/
def chAux : Nat → Nat → Nat → Nat → Nat
  | 0, _, _, _ => 0
  | k+1, e, f, g =>
      e % 2 * (f % 2) + (1 - e % 2) * (g % 2) + 2 * chAux k (e / 2) (f / 2) (g / 2)

/-- Fuel-based bitwise majority, the SHA-256 `Maj` function, in one pass. -/
def majAux : Nat → Nat → Nat → Nat → Nat
  | 0, _, _, _ => 0
  | k+1, a, b, c => (a % 2 + b % 2 + c % 2) / 2 + 2 * majAux k (a / 2) (b / 2) (c / 2)

def xor32 (a b : Nat) : Nat := xorAux 32 a b
def xor3 (a b c : Nat) : Nat := xor3Aux 32 a b c
def ch3 (e f g : Nat) : Nat := chAux 32 e f g
def maj3 (a b c : Nat) : Nat := majAux 32 a b c
def add32 (a b : Nat) : Nat := (a + b) % pow32
def rotr (n x : Nat) : Nat := x % pow32 / 2 ^ n + x % pow32 % 2 ^ n * 2 ^ (32 - n)
def shr (n x : Nat) : Nat := x % pow32 / 2 ^ n

/-- JavaScript `ToInt32`: wrap into the signed 32-bit range. -/
def toInt32 (x : Int) : Int :=
  let m := x % 4294967296
  if m < 2147483648 then m else m - 4294967296

def hexDigit (n : Nat) : Char :=
  if n < 10 then Char.ofNat (48 + n) else Char.ofNat (87 + n)

/-- Fuel-based rendering of a natural in base 16 (JS `n.toString(16)`). -/
def natToHexAux : Nat → Nat → String
  | 0, _ => ""
  | k+1, n =>
      if n < 16 then String.mk [hexDigit n]
      else natToHexAux k (n / 16) ++ String.mk [hexDigit (n % 16)]

def natToHex (n : Nat) : String := natToHexAux 64 n

end JsNum

namespace Sha256

open JsNum

/-- The SHA-256 round constants. -/
def K : List Nat :=
  [1116352408, 1899447441, 3049323471, 3921009573, 961987163,
   1508970993, 2453635748, 2870763221, 3624381080, 310598401,
   607225278, 1426881987, 1925078388, 2162078206, 2614888103,
   3248222580, 3835390401, 4022224774, 264347078, 604807628,
   770255983, 1249150122, 1555081692, 1996064986, 2554220882,
   2821834349, 2952996808, 3210313671, 3336571891, 3584528711,
   113926993, 338241895, 666307205, 773529912, 1294757372,
   1396182291, 1695183700, 1986661051, 2177026350, 2456956037,
   2730485921, 2820302411, 3259730800, 3345764771, 3516065817,
   3600352804, 4094571909, 275423344, 430227734, 506948616,
   659060556, 883997877, 958139571, 1322822218, 1537002063,
   1747873779, 1955562222, 2024104815, 2227730452, 2361852424,
   2428436474, 2756734187, 3204031479, 3329325298]

/-- The SHA-256 initial hash state. -/
def H0 : List Nat :=
  [1779033703, 3144134277, 1013904242, 2773480762,
   1359893119, 2600822924, 528734635, 1541459225]

def smallSigma0 (x : Nat) : Nat := xor3 (rotr 7 x) (rotr 18 x) (shr 3 x)
def smallSigma1 (x : Nat) : Nat := xor3 (rotr 17 x) (rotr 19 x) (shr 10 x)
def bigSigma0 (x : Nat) : Nat := xor3 (rotr 2 x) (rotr 13 x) (rotr 22 x)
def bigSigma1 (x : Nat) : Nat := xor3 (rotr 6 x) (rotr 11 x) (rotr 25 x)

/-- Extend a 16-word block to the 64-word message schedule (words accumulated in reverse). -/
def scheduleAux : Nat → List Nat → List Nat
  | 0, acc => acc
  | k+1, acc =>
      let w2 := acc.getD 1 0
      let w7 := acc.getD 6 0
      let w15 := acc.getD 14 0
      let w16 := acc.getD 15 0
      let w := add32 (add32 (smallSigma1 w2) w7) (add32 (smallSigma0 w15) w16)
      scheduleAux k (w :: acc)

def schedule (block : List Nat) : List Nat :=
  (scheduleAux 48 block.reverse).reverse

/-- One round of the compression function on state `[a, b, c, d, e, f, g, h]`. -/
def round (st : List Nat) (kw : Nat × Nat) : List Nat :=
  match st with
  | [a, b, c, d, e, f, g, h] =>
      let ch := ch3 e f g
      let maj := maj3 a b c
      let t1 := add32 (add32 (add32 h (bigSigma1 e)) (add32 ch kw.1)) kw.2
      let t2 := add32 (bigSigma0 a) maj
      [add32 t1 t2, a, b, c, add32 d t1, e, f, g]
  | st => st

def compress (hs : List Nat) (block : List Nat) : List Nat :=
  let ws := schedule block
  let st := (K.zip ws).foldl round hs
  (hs.zip st).map fun p => add32 p.1 p.2

/-- Split bytes into 32-bit big-endian words. -/
def bytesToWords : List Nat → List Nat
  | b0 :: b1 :: b2 :: b3 :: rest =>
      (((b0 * 256 + b1) * 256 + b2) * 256 + b3) :: bytesToWords rest
  | _ => []

def chunkWords : List Nat → List (List Nat)
  | w0 :: w1 :: w2 :: w3 :: w4 :: w5 :: w6 :: w7 :: w8 :: w9 :: w10 :: w11 :: w12 :: w13 :: w14 :: w15 :: rest =>
      [w0, w1, w2, w3, w4, w5, w6, w7, w8, w9, w10, w11, w12, w13, w14, w15] :: chunkWords rest
  | _ => []

/-- SHA-256 padding: append 0x80, zeros to 56 mod 64, then the 64-bit big-endian bit length. -/
def pad (msg : List Nat) : List Nat :=
  let len := msg.length
  let zeros := (64 + 55 - len % 64) % 64
  let bits := len * 8
  msg ++ [0x80] ++ List.replicate zeros 0 ++
    [bits / 2^56 % 256, bits / 2^48 % 256, bits / 2^40 % 256, bits / 2^32 % 256,
     bits / 2^24 % 256, bits / 2^16 % 256, bits / 2^8 % 256, bits % 256]

def digestWords (msg : List Nat) : List Nat :=
  (chunkWords (bytesToWords (pad msg))).foldl compress H0

/-- `b.toString(16).padStart(2, '0')` for a byte, as the source renders digest bytes. -/
def hexByte (b : Nat) : String :=
  String.mk [JsNum.hexDigit (b / 16 % 16), JsNum.hexDigit (b % 16)]

def wordBytes (w : Nat) : List Nat :=
  [w / 2^24 % 256, w / 2^16 % 256, w / 2^8 % 256, w % 256]

/-- UTF-8 encoding of a character sequence (what `TextEncoder.encode` produces). -/
def utf8Bytes : List Char → List Nat
  | [] => []
  | c :: cs =>
      let n := c.toNat
      (if n < 0x80 then [n]
       else if n < 0x800 then [0xc0 + n / 64, 0x80 + n % 64]
       else if n < 0x10000 then [0xe0 + n / 4096, 0x80 + n / 64 % 64, 0x80 + n % 64]
       else [0xf0 + n / 262144, 0x80 + n / 4096 % 64, 0x80 + n / 64 % 64, 0x80 + n % 64]) ++
      utf8Bytes cs

/-- Hex digest of the SHA-256 of a string: the source's `crypto.subtle.digest`
path in `calculateChecksum`, bytes rendered as two lowercase hex digits each. -/
def sha256hex (s : String) : String :=
  String.join (((digestWords (utf8Bytes s.data)).map wordBytes).flatten.map hexByte)

end Sha256

namespace Shop

open JsNum

/-- The fallback rolling hash of `calculateChecksum` for environments without
`crypto.subtle`: `hash = ((hash << 5) - hash) + charCodeAt(i)` coerced to a
signed 32-bit integer each step, rendered as `Math.abs(hash).toString(16)`.
The signed state is tracked by its unsigned 32-bit representative `m`
(`m = hash mod 2^32`): each step is congruent to `32*hash - hash + c`, i.e.
`31*m + c`, modulo 2^32, and `Math.abs` of the signed value is `m` when
`m < 2^31`, else `2^32 - m`. -/
def simpleHash (s : String) : String :=
  let m := s.data.foldl (fun (m : Nat) c => (31 * m + c.toNat) % pow32) 0
  natToHex (if m < 2147483648 then m else pow32 - m)

inductive PaymentMethod
  | cash | mpesa | card | other
deriving DecidableEq, Repr

inductive SaleStatus
  | completed | reversed
deriving DecidableEq, Repr

structure Product where
  id : String
  name : String
  sku : String
  barcode : Option String
  category : Option String
  cost_price : Int
  selling_price : Int
  current_stock : Int
  low_stock_threshold : Int
  created_at : String
  updated_at : String
deriving DecidableEq, Repr

structure SaleItem where
  product_id : String
  product_name : String
  quantity : Int
  unit_price : Int
  subtotal : Int
deriving DecidableEq, Repr

structure Receipt where
  id : String
  sale_id : String
  number : String
  issued_at : String
  total : Int
  payment_method : PaymentMethod
deriving DecidableEq, Repr

structure Customer where
  id : Option String
  name : Option String
  phone : Option String
deriving DecidableEq, Repr

structure Sale where
  id : String
  date : String
  items : List SaleItem
  total_amount : Int
  payment_method : PaymentMethod
  staff_id : Option String
  customer : Option Customer
  receipt : Option Receipt
  status : SaleStatus
deriving DecidableEq, Repr

inductive StockMovementType
  | restock | saleMove | adjustment
deriving DecidableEq, Repr

structure StockMovement where
  id : String
  product_id : String
  quantity : Int
  type : StockMovementType
  date : String
  notes : Option String
  supplier_id : Option String
deriving DecidableEq, Repr

inductive AppRole
  | admin | manager | cashier | viewer
deriving DecidableEq, Repr

structure Staff where
  id : String
  name : String
  email : String
  role : AppRole
  created_at : String
deriving DecidableEq, Repr

inductive BackupFrequency
  | daily | weekly | monthly
deriving DecidableEq, Repr

structure BackupPreferences where
  enabled : Bool
  frequency : BackupFrequency
  last_run_at : Option String
deriving DecidableEq, Repr

structure BusinessSettings where
  id : String
  business_name : String
  default_currency : String
  timezone : String
  backup : BackupPreferences
  reversal_window_hours : Int
  created_at : String
  updated_at : String
deriving DecidableEq, Repr

/-- A value of the dynamic `metadata: Record<string, any>` payload of an audit entry. -/
inductive MetaVal
  | num (i : Int)
  | str (s : String)
deriving DecidableEq, Repr

structure AuditLog where
  id : String
  action : String
  entity_type : String
  entity_id : Option String
  staff_id : Option String
  reason : Option String
  timestamp : String
  metadata : Option (List (String × MetaVal))
deriving DecidableEq, Repr

structure AppCounter where
  id : String
  value : Int
  last_updated : String
deriving DecidableEq, Repr

/-- The seven IndexedDB object stores of `DatabaseManager`, each a list of records. -/
structure DB where
  products : List Product
  sales : List Sale
  stock_movements : List StockMovement
  staff : List Staff
  business_settings : List BusinessSettings
  audit_logs : List AuditLog
  counters : List AppCounter
deriving DecidableEq, Repr

def emptyDB : DB := ⟨[], [], [], [], [], [], []⟩

/-- `os.put`: insert or replace by primary key `id`. -/
def upsertBy (idOf : α → String) (x : α) : List α → List α
  | [] => [x]
  | y :: ys => if idOf y = idOf x then x :: ys else y :: upsertBy idOf x ys

/-- `os.get(id)`: the record with the given key, if present. -/
def findBy (idOf : α → String) (i : String) (l : List α) : Option α :=
  l.find? fun y => idOf y == i

/-- `deleteMany`: remove every record whose key is listed. -/
def deleteManyBy (idOf : α → String) (ids : List String) (l : List α) : List α :=
  l.filter fun y => !(ids.contains (idOf y))

def isHexChar (c : Char) : Bool :=
  ('0' ≤ c && c ≤ '9') || ('a' ≤ c && c ≤ 'f') || ('A' ≤ c && c ≤ 'F')

/-- `z.string().uuid()`: 36 characters, hyphens at positions 8, 13, 18, 23,
hex digits elsewhere. -/
def isUuid (s : String) : Bool :=
  let cs := s.data
  cs.length == 36 &&
    (List.range 36).all fun i =>
      let c := cs.getD i ' '
      if i == 8 || i == 13 || i == 18 || i == 23 then c == '-' else isHexChar c

/-- `z.string().min(1)`. -/
def minLen1 (s : String) : Bool := decide (1 ≤ s.length)

/-- Coarse model of `z.string().email()`; no claim depends on its exact regex. -/
def isEmail (s : String) : Bool := s.contains '@' && minLen1 s

def optUuid : Option String → Bool
  | none => true
  | some s => isUuid s

/-- `productSchema`. -/
def productValid (p : Product) : Bool :=
  isUuid p.id && minLen1 p.name && minLen1 p.sku &&
    decide (0 ≤ p.cost_price) && decide (0 ≤ p.selling_price)

/-- `saleItemSchema`. -/
def saleItemValid (i : SaleItem) : Bool :=
  isUuid i.product_id && minLen1 i.product_name &&
    decide (0 < i.quantity) && decide (0 ≤ i.unit_price) && decide (0 ≤ i.subtotal)

/-- `receiptSchema`. -/
def receiptValid (r : Receipt) : Bool :=
  isUuid r.id && isUuid r.sale_id && minLen1 r.number && decide (0 ≤ r.total)

def customerValid : Option Customer → Bool
  | none => true
  | some c => optUuid c.id

/-- `saleSchema`: structural checks only; nothing ties `total_amount` to the
item subtotals nor a subtotal to `quantity * unit_price`. -/
def saleValid (s : Sale) : Bool :=
  isUuid s.id && decide (1 ≤ s.items.length) && s.items.all saleItemValid &&
    decide (0 ≤ s.total_amount) && optUuid s.staff_id && customerValid s.customer &&
    (match s.receipt with
     | none => true
     | some r => receiptValid r)

/-- `stockMovementSchema`. -/
def stockMovementValid (m : StockMovement) : Bool :=
  isUuid m.id && isUuid m.product_id && optUuid m.supplier_id

/-- `staffSchema`. -/
def staffValid (st : Staff) : Bool :=
  isUuid st.id && minLen1 st.name && isEmail st.email

/-- `settingsSchema`. -/
def settingsValid (s : BusinessSettings) : Bool :=
  isUuid s.id && minLen1 s.business_name && minLen1 s.default_currency &&
    minLen1 s.timezone && decide (1 ≤ s.reversal_window_hours) &&
    decide (s.reversal_window_hours ≤ 168)

/-- A storage-facing `ServiceResponse`: success with data, or failure with error. -/
inductive Res (α : Type)
  | ok (data : α)
  | err (error : String)
deriving DecidableEq, Repr

end Shop

namespace Shop

/-!  `StorageService.save` / `saveMany`: validate against the schema map
(`products`, `sales`, `stock_movements`, `staff`, `business_settings` have
schemas; `audit_logs` and `counters` have none and are stored unvalidated),
then `put` into the store.  The zod error message is summarised as
"Validation failed".  -/

def saveProduct (db : DB) (p : Product) : Res Product × DB :=
  if productValid p then (.ok p, { db with products := upsertBy Product.id p db.products })
  else (.err "Validation failed", db)

def saveSale (db : DB) (s : Sale) : Res Sale × DB :=
  if saleValid s then (.ok s, { db with sales := upsertBy Sale.id s db.sales })
  else (.err "Validation failed", db)

def saveStockMovement (db : DB) (m : StockMovement) : Res StockMovement × DB :=
  if stockMovementValid m then
    (.ok m, { db with stock_movements := upsertBy StockMovement.id m db.stock_movements })
  else (.err "Validation failed", db)

def saveStaff (db : DB) (st : Staff) : Res Staff × DB :=
  if staffValid st then (.ok st, { db with staff := upsertBy Staff.id st db.staff })
  else (.err "Validation failed", db)

def saveSettings (db : DB) (s : BusinessSettings) : Res BusinessSettings × DB :=
  if settingsValid s then
    (.ok s, { db with business_settings := upsertBy BusinessSettings.id s db.business_settings })
  else (.err "Validation failed", db)

def saveAuditLog (db : DB) (a : AuditLog) : Res AuditLog × DB :=
  (.ok a, { db with audit_logs := upsertBy AuditLog.id a db.audit_logs })

def saveCounter (db : DB) (c : AppCounter) : Res AppCounter × DB :=
  (.ok c, { db with counters := upsertBy AppCounter.id c db.counters })

/-- `saveMany`: validate the entire batch first, then put every member. -/
def saveManyBy (valid : α → Bool) (idOf : α → String) (l : List α) (items : List α) :
    Res (List α) × List α :=
  if items.all valid then (.ok items, items.foldl (fun acc x => upsertBy idOf x acc) l)
  else (.err "Validation failed", l)

namespace ProductManager

/-- `ProductManager.updateStock(productId, delta)`: read the product, fail with
"Product not found" if absent, compute the new stock, fail with
"Insufficient stock" if it would be negative, otherwise save. -/
def updateStock (now : String) (db : DB) (productId : String) (delta : Int) :
    Res Product × DB :=
  match findBy Product.id productId db.products with
  | none => (.err "Product not found", db)
  | some p =>
      let next := { p with current_stock := p.current_stock + delta, updated_at := now }
      if next.current_stock < 0 then (.err "Insufficient stock", db)
      else saveProduct db next

end ProductManager

namespace CounterManager

/-- `CounterManager.increment(counterId, delta = 1)`: read the current value,
add `delta` (or start at `delta` when absent), persist, return the new value. -/
def increment (now : String) (db : DB) (counterId : String) (delta : Int) :
    Res Int × DB :=
  let newValue :=
    match findBy AppCounter.id counterId db.counters with
    | some c => c.value + delta
    | none => delta
  let counter : AppCounter := ⟨counterId, newValue, now⟩
  match saveCounter db counter with
  | (.ok _, db') => (.ok newValue, db')
  | (.err e, db') => (.err e, db')

/-- `CounterManager.getValue`: the stored value, 0 when absent. -/
def getValue (db : DB) (counterId : String) : Int :=
  match findBy AppCounter.id counterId db.counters with
  | some c => c.value
  | none => 0

end CounterManager

namespace AuditManager

/-- `AuditManager.logAction`: build an audit record and save it (unvalidated). -/
def logAction (genId now : String) (db : DB) (action entity_type : String)
    (entity_id staff_id reason : Option String)
    (metadata : Option (List (String × MetaVal))) : Res AuditLog × DB :=
  saveAuditLog db
    { id := genId, action, entity_type, entity_id, staff_id, reason,
      timestamp := now, metadata }

end AuditManager

namespace SalesManager

/-- One element of `recordSale`'s `items` argument. -/
structure SaleInputItem where
  product : Product
  quantity : Int
  price : Option Int
deriving DecidableEq, Repr

structure RecordSaleParams where
  items : List SaleInputItem
  payment_method : PaymentMethod
  staff_id : Option String
  customer : Option Customer
deriving DecidableEq, Repr

/-- Values `recordSale` draws from the environment: generated UUIDs, the
current ISO time, and the random fallback receipt number. -/
structure GenEnv where
  saleId : String
  now : String
  receiptId : String
  auditId : String
  randomReceiptNum : Int
deriving DecidableEq, Repr

/-- `{product_id, product_name, quantity, unit_price: price ?? selling_price,
subtotal: (price ?? selling_price) * quantity}`. -/
def mkSaleItem (x : SaleInputItem) : SaleItem :=
  { product_id := x.product.id
    product_name := x.product.name
    quantity := x.quantity
    unit_price := x.price.getD x.product.selling_price
    subtotal := x.price.getD x.product.selling_price * x.quantity }

/-- `calcTotals`: `items.reduce((s, i) => s + i.subtotal, 0)`. -/
def calcTotal (items : List SaleItem) : Int :=
  items.foldl (fun s i => s + i.subtotal) 0

/-- The stock-deduction loop of `recordSale`: each item in order, bail out on
the first failed adjustment with an error naming the product. -/
def deductLoop (now : String) : DB → List SaleItem → Option String × DB
  | db, [] => (none, db)
  | db, it :: rest =>
      match ProductManager.updateStock now db it.product_id (-it.quantity) with
      | (.ok _, db') => deductLoop now db' rest
      | (.err _, db') => (some ("Stock update failed for " ++ it.product_name), db')

/-- `String(n).padStart(6, '0')`. -/
def pad6 (n : Int) : String :=
  let s := toString n
  if s.length < 6 then String.mk (List.replicate (6 - s.length) '0') ++ s else s

/-- The sale object `recordSale` builds before any write. -/
def mkSale (g : GenEnv) (params : RecordSaleParams) : Sale :=
  { id := g.saleId, date := g.now, items := params.items.map mkSaleItem
    total_amount := calcTotal (params.items.map mkSaleItem)
    payment_method := params.payment_method, staff_id := params.staff_id
    customer := params.customer, receipt := none, status := .completed }

/-- The receipt object `recordSale` builds after allocating a number. -/
def mkReceipt (g : GenEnv) (sale : Sale) (receiptNum : Int) : Receipt :=
  { id := g.receiptId, sale_id := sale.id
    number := "R-" ++ pad6 receiptNum, issued_at := sale.date
    total := sale.total_amount, payment_method := sale.payment_method }

/-- The receipt-issuing and audit-logging tail of `recordSale`, entered once
the sale has been saved into `db2`. -/
def recordSaleTail (g : GenEnv) (params : RecordSaleParams) (sale : Sale) (db2 : DB) :
    Res Sale × DB :=
  let rr := CounterManager.increment g.now db2 "receipts" 1
  let db3 := rr.2
  let receiptNum := match rr.1 with | .ok v => v | .err _ => g.randomReceiptNum
  let receipt := mkReceipt g sale receiptNum
  let step :=
    if receiptValid receipt then
      let s2 := { sale with receipt := some receipt }
      (s2, (saveSale db3 s2).2)
    else (sale, db3)
  let db5 := (AuditManager.logAction g.auditId g.now step.2 "sale_recorded" "sale"
    (some sale.id) params.staff_id none
    (some [("total", .num sale.total_amount),
           ("items_count", .num (params.items.map mkSaleItem).length)])).2
  (.ok step.1, db5)

/-- `SalesManager.recordSale`. -/
def recordSale (g : GenEnv) (db : DB) (params : RecordSaleParams) : Res Sale × DB :=
  if params.items.isEmpty then (.err "No items in sale", db) else
  match deductLoop g.now db (params.items.map mkSaleItem) with
  | (some e, db1) => (.err e, db1)
  | (none, db1) =>
      match saveSale db1 (mkSale g params) with
      | (.err e, db2) => (.err e, db2)
      | (.ok _, db2) => recordSaleTail g params (mkSale g params) db2

/-- The reversal window: `reversal_window_hours` of the first business-settings
record found, 24 hours by default. -/
def reversalWindowOf (db : DB) : Int :=
  match db.business_settings.head? with
  | some st => st.reversal_window_hours
  | none => 24

/-- `SalesManager.canReverseSale`.  The source compares
`(now - saleDate) / (1000*60*60) <= reversalWindow`; the model clears the
positive constant divisor: `now - saleDate <= reversalWindow * 3600000`,
with times in epoch milliseconds and `parseDate` the environment's
ISO-date parser. -/
def canReverseSale (parseDate : String → Int) (nowMs : Int) (db : DB)
    (saleId : String) : Bool :=
  match findBy Sale.id saleId db.sales with
  | none => false
  | some sale =>
      if sale.status = .reversed then false
      else decide (nowMs - parseDate sale.date ≤ reversalWindowOf db * (1000 * 60 * 60))

/-- The stock-restoration loop of `reverseSale`: add each quantity back; on the
first failure save the original (pre-reversal) sale back and bail out. -/
def restoreStock (now : String) (originalSale : Sale) :
    DB → List SaleItem → Option String × DB
  | db, [] => (none, db)
  | db, item :: rest =>
      match ProductManager.updateStock now db item.product_id item.quantity with
      | (.ok _, db') => restoreStock now originalSale db' rest
      | (.err _, db') =>
          let db'' := (saveSale db' originalSale).2
          (some ("Failed to reverse stock for " ++ item.product_name), db'')

/-- `SalesManager.reverseSale`. -/
def reverseSale (parseDate : String → Int) (nowMs : Int) (auditId now : String)
    (db : DB) (saleId : String) (reason staffId : Option String) : Res Sale × DB :=
  if !canReverseSale parseDate nowMs db saleId then
    (.err "Sale cannot be reversed - outside allowed time window or already reversed", db)
  else
    match findBy Sale.id saleId db.sales with
    | none => (.err "Sale not found", db)
    | some sale =>
        let reversedSale := { sale with status := SaleStatus.reversed }
        match saveSale db reversedSale with
        | (.err _, db1) => (.err "Failed to update sale status", db1)
        | (.ok _, db1) =>
            match restoreStock now sale db1 sale.items with
            | (some e, db2) => (.err e, db2)
            | (none, db2) =>
                let db3 := (AuditManager.logAction auditId now db2 "sale_reversed" "sale"
                  (some saleId) staffId reason
                  (some [("original_total", .num sale.total_amount),
                         ("items_count", .num sale.items.length),
                         ("original_date", .str sale.date)])).2
                (.ok reversedSale, db3)

end SalesManager

end Shop

namespace Shop

/-!  The backup engine.  `JSON.stringify` is modelled per record type, keys in
the order the source constructs each record (which is the order the engine
serializes in).  The records the repository writes contain no control
characters, so escaping handles quote and backslash.  -/

def jsonEscape : List Char → List Char
  | [] => []
  | c :: cs =>
      (if c = '"' then ['\\', '"']
       else if c = '\\' then ['\\', '\\']
       else [c]) ++ jsonEscape cs

def jstr (s : String) : String := "\"" ++ String.mk (jsonEscape s.data) ++ "\""

def jnum (i : Int) : String := toString i

def jOptStr : Option String → String
  | none => "null"
  | some s => jstr s

def jarr (xs : List String) : String := "[" ++ String.intercalate "," xs ++ "]"

def pmName : PaymentMethod → String
  | .cash => "cash"
  | .mpesa => "mpesa"
  | .card => "card"
  | .other => "other"

def statusName : SaleStatus → String
  | .completed => "completed"
  | .reversed => "reversed"

def movementTypeName : StockMovementType → String
  | .restock => "restock"
  | .saleMove => "sale"
  | .adjustment => "adjustment"

def roleName : AppRole → String
  | .admin => "admin"
  | .manager => "manager"
  | .cashier => "cashier"
  | .viewer => "viewer"

def frequencyName : BackupFrequency → String
  | .daily => "daily"
  | .weekly => "weekly"
  | .monthly => "monthly"

def jbool : Bool → String
  | true => "true"
  | false => "false"

def productJson (p : Product) : String :=
  "\x7b\"id\":" ++ jstr p.id ++ ",\"name\":" ++ jstr p.name ++ ",\"sku\":" ++ jstr p.sku ++
    ",\"barcode\":" ++ jOptStr p.barcode ++ ",\"category\":" ++ jOptStr p.category ++
    ",\"cost_price\":" ++ jnum p.cost_price ++ ",\"selling_price\":" ++ jnum p.selling_price ++
    ",\"current_stock\":" ++ jnum p.current_stock ++
    ",\"low_stock_threshold\":" ++ jnum p.low_stock_threshold ++
    ",\"created_at\":" ++ jstr p.created_at ++ ",\"updated_at\":" ++ jstr p.updated_at ++ "\x7d"

def saleItemJson (i : SaleItem) : String :=
  "\x7b\"product_id\":" ++ jstr i.product_id ++ ",\"product_name\":" ++ jstr i.product_name ++
    ",\"quantity\":" ++ jnum i.quantity ++ ",\"unit_price\":" ++ jnum i.unit_price ++
    ",\"subtotal\":" ++ jnum i.subtotal ++ "\x7d"

def receiptJson (r : Receipt) : String :=
  "\x7b\"id\":" ++ jstr r.id ++ ",\"sale_id\":" ++ jstr r.sale_id ++
    ",\"number\":" ++ jstr r.number ++ ",\"issued_at\":" ++ jstr r.issued_at ++
    ",\"total\":" ++ jnum r.total ++ ",\"payment_method\":" ++ jstr (pmName r.payment_method) ++ "\x7d"

/-- `JSON.stringify` omits absent optional keys of the customer object. -/
def customerJson (c : Customer) : String :=
  "\x7b" ++ String.intercalate ","
    ((match c.id with | some v => ["\"id\":" ++ jstr v] | none => []) ++
     (match c.name with | some v => ["\"name\":" ++ jstr v] | none => []) ++
     (match c.phone with | some v => ["\"phone\":" ++ jstr v] | none => [])) ++ "\x7d"

def jOpt (f : α → String) : Option α → String
  | none => "null"
  | some x => f x

def saleJson (s : Sale) : String :=
  "\x7b\"id\":" ++ jstr s.id ++ ",\"date\":" ++ jstr s.date ++
    ",\"items\":" ++ jarr (s.items.map saleItemJson) ++
    ",\"total_amount\":" ++ jnum s.total_amount ++
    ",\"payment_method\":" ++ jstr (pmName s.payment_method) ++
    ",\"staff_id\":" ++ jOptStr s.staff_id ++
    ",\"customer\":" ++ jOpt customerJson s.customer ++
    ",\"receipt\":" ++ jOpt receiptJson s.receipt ++
    ",\"status\":" ++ jstr (statusName s.status) ++ "\x7d"

def stockMovementJson (m : StockMovement) : String :=
  "\x7b\"id\":" ++ jstr m.id ++ ",\"date\":" ++ jstr m.date ++
    ",\"notes\":" ++ jOptStr m.notes ++ ",\"supplier_id\":" ++ jOptStr m.supplier_id ++
    ",\"product_id\":" ++ jstr m.product_id ++ ",\"quantity\":" ++ jnum m.quantity ++
    ",\"type\":" ++ jstr (movementTypeName m.type) ++ "\x7d"

def staffJson (st : Staff) : String :=
  "\x7b\"id\":" ++ jstr st.id ++ ",\"name\":" ++ jstr st.name ++
    ",\"email\":" ++ jstr st.email ++ ",\"role\":" ++ jstr (roleName st.role) ++
    ",\"created_at\":" ++ jstr st.created_at ++ "\x7d"

def backupPrefsJson (b : BackupPreferences) : String :=
  "\x7b\"enabled\":" ++ jbool b.enabled ++ ",\"frequency\":" ++ jstr (frequencyName b.frequency) ++
    ",\"last_run_at\":" ++ jOptStr b.last_run_at ++ "\x7d"

def settingsJson (s : BusinessSettings) : String :=
  "\x7b\"id\":" ++ jstr s.id ++ ",\"business_name\":" ++ jstr s.business_name ++
    ",\"default_currency\":" ++ jstr s.default_currency ++
    ",\"timezone\":" ++ jstr s.timezone ++
    ",\"backup\":" ++ backupPrefsJson s.backup ++
    ",\"reversal_window_hours\":" ++ jnum s.reversal_window_hours ++
    ",\"created_at\":" ++ jstr s.created_at ++ ",\"updated_at\":" ++ jstr s.updated_at ++ "\x7d"

def metaValJson : MetaVal → String
  | .num i => jnum i
  | .str s => jstr s

def metadataJson (m : List (String × MetaVal)) : String :=
  "\x7b" ++ String.intercalate "," (m.map fun kv => jstr kv.1 ++ ":" ++ metaValJson kv.2) ++ "\x7d"

def auditLogJson (a : AuditLog) : String :=
  "\x7b\"id\":" ++ jstr a.id ++ ",\"action\":" ++ jstr a.action ++
    ",\"entity_type\":" ++ jstr a.entity_type ++
    ",\"entity_id\":" ++ jOptStr a.entity_id ++
    ",\"staff_id\":" ++ jOptStr a.staff_id ++
    ",\"reason\":" ++ jOptStr a.reason ++
    ",\"timestamp\":" ++ jstr a.timestamp ++
    ",\"metadata\":" ++ jOpt metadataJson a.metadata ++ "\x7d"

def counterJson (c : AppCounter) : String :=
  "\x7b\"id\":" ++ jstr c.id ++ ",\"value\":" ++ jnum c.value ++
    ",\"last_updated\":" ++ jstr c.last_updated ++ "\x7d"

/-- The `tables` map of a snapshot, one list per collection. -/
structure Tables where
  products : List Product
  sales : List Sale
  stock_movements : List StockMovement
  staff : List Staff
  business_settings : List BusinessSettings
  audit_logs : List AuditLog
  counters : List AppCounter
deriving DecidableEq, Repr

structure BackupSnapshot where
  schemaVersion : Int
  backupVersion : String
  timestamp : String
  counters : List (String × Int)
  tables : Tables
  checksum : String
deriving DecidableEq, Repr

/-- `tables.counters.forEach(c => countersMap[c.id] = c.value)`: object-key
assignment keeps the first insertion position on overwrite. -/
def setKey (k : String) (v : Int) : List (String × Int) → List (String × Int)
  | [] => [(k, v)]
  | kv :: rest => if kv.1 = k then (k, v) :: rest else kv :: setKey k v rest

def countersMapOf (cs : List AppCounter) : List (String × Int) :=
  cs.foldl (fun m c => setKey c.id c.value m) []

def countersMapJson (m : List (String × Int)) : String :=
  "\x7b" ++ String.intercalate "," (m.map fun kv => jstr kv.1 ++ ":" ++ jnum kv.2) ++ "\x7d"

def tablesJson (t : Tables) : String :=
  "\x7b\"products\":" ++ jarr (t.products.map productJson) ++
    ",\"sales\":" ++ jarr (t.sales.map saleJson) ++
    ",\"stock_movements\":" ++ jarr (t.stock_movements.map stockMovementJson) ++
    ",\"staff\":" ++ jarr (t.staff.map staffJson) ++
    ",\"business_settings\":" ++ jarr (t.business_settings.map settingsJson) ++
    ",\"audit_logs\":" ++ jarr (t.audit_logs.map auditLogJson) ++
    ",\"counters\":" ++ jarr (t.counters.map counterJson) ++ "\x7d"

/-- `JSON.stringify(snapshot)` as `calculateChecksum` receives it from
`aggregateAllData`: the object still carries its `checksum` key (holding `""`
at that point), serialized last in insertion order. -/
def snapshotJsonWithChecksum (s : BackupSnapshot) : String :=
  "\x7b\"schemaVersion\":" ++ jnum s.schemaVersion ++
    ",\"backupVersion\":" ++ jstr s.backupVersion ++
    ",\"timestamp\":" ++ jstr s.timestamp ++
    ",\"counters\":" ++ countersMapJson s.counters ++
    ",\"tables\":" ++ tablesJson s.tables ++
    ",\"checksum\":" ++ jstr s.checksum ++ "\x7d"

/-- `JSON.stringify(dataToCheck)` as `validateBackupChecksum` builds it:
`const { checksum, ...dataToCheck } = snapshot` removes the `checksum` key,
the remaining keys keep their order. -/
def snapshotJsonSansChecksum (s : BackupSnapshot) : String :=
  "\x7b\"schemaVersion\":" ++ jnum s.schemaVersion ++
    ",\"backupVersion\":" ++ jstr s.backupVersion ++
    ",\"timestamp\":" ++ jstr s.timestamp ++
    ",\"counters\":" ++ countersMapJson s.counters ++
    ",\"tables\":" ++ tablesJson s.tables ++ "\x7d"

/-- `calculateChecksum` on an already-serialized payload: SHA-256 when
`crypto.subtle` is available, else the fallback rolling hash. -/
def calculateChecksumStr (cryptoAvailable : Bool) (dataString : String) : String :=
  if cryptoAvailable then Sha256.sha256hex dataString else simpleHash dataString

/-- `getAll` of every collection, assembled into the `tables` map. -/
def tablesOf (db : DB) : Tables :=
  ⟨db.products, db.sales, db.stock_movements, db.staff, db.business_settings,
   db.audit_logs, db.counters⟩

/-- `aggregateAllData`: build the snapshot with `checksum: ""`, then store
`calculateChecksum(snapshot)` — computed over the serialization that still
contains the empty `checksum` field — into it. -/
def aggregateAllData (cryptoAvailable : Bool) (timestamp : String) (db : DB) :
    BackupSnapshot :=
  let tables := tablesOf db
  let snap0 : BackupSnapshot :=
    { schemaVersion := 1, backupVersion := "1.0.0", timestamp
      counters := countersMapOf tables.counters, tables, checksum := "" }
  { snap0 with checksum := calculateChecksumStr cryptoAvailable (snapshotJsonWithChecksum snap0) }

/-- `validateBackupChecksum`: recompute over the snapshot minus its `checksum`
key and compare with the stored value. -/
def validateBackupChecksum (cryptoAvailable : Bool) (snap : BackupSnapshot) : Bool :=
  snap.checksum == calculateChecksumStr cryptoAvailable (snapshotJsonSansChecksum snap)

/-- `clearAllStores`: for each store, collect all ids and `deleteMany` them. -/
def clearStore (idOf : α → String) (l : List α) : List α :=
  deleteManyBy idOf (l.map idOf) l

def clearAllStores (db : DB) : DB :=
  { products := clearStore Product.id db.products
    sales := clearStore Sale.id db.sales
    stock_movements := clearStore StockMovement.id db.stock_movements
    staff := clearStore Staff.id db.staff
    business_settings := clearStore BusinessSettings.id db.business_settings
    audit_logs := clearStore AuditLog.id db.audit_logs
    counters := clearStore AppCounter.id db.counters }

/-- The bulk-insert half of `restoreFromSnapshot`: each non-empty table is
written with `saveMany` (whose result the source ignores; a batch that fails
validation is skipped whole). -/
def insertTables (db : DB) (t : Tables) : DB :=
  let db := if t.products.isEmpty then db
    else { db with products := (saveManyBy productValid Product.id db.products t.products).2 }
  let db := if t.sales.isEmpty then db
    else { db with sales := (saveManyBy saleValid Sale.id db.sales t.sales).2 }
  let db := if t.stock_movements.isEmpty then db
    else { db with stock_movements :=
      (saveManyBy stockMovementValid StockMovement.id db.stock_movements t.stock_movements).2 }
  let db := if t.staff.isEmpty then db
    else { db with staff := (saveManyBy staffValid Staff.id db.staff t.staff).2 }
  let db := if t.business_settings.isEmpty then db
    else { db with business_settings :=
      (saveManyBy settingsValid BusinessSettings.id db.business_settings t.business_settings).2 }
  let db := if t.audit_logs.isEmpty then db
    else { db with audit_logs :=
      (saveManyBy (fun _ => true) AuditLog.id db.audit_logs t.audit_logs).2 }
  let db := if t.counters.isEmpty then db
    else { db with counters :=
      (saveManyBy (fun _ => true) AppCounter.id db.counters t.counters).2 }
  db

/-- `restoreFromSnapshot`: clear every store first, then bulk-insert every
table of the snapshot. -/
def restoreFromSnapshot (db : DB) (snap : BackupSnapshot) : DB :=
  insertTables (clearAllStores db) snap.tables

/-- `importBackupFile` after decompression: validate the checksum — a mismatch
throws before anything is touched — then restore. -/
def importBackupFile (cryptoAvailable : Bool) (db : DB) (snap : BackupSnapshot) :
    Res Unit × DB :=
  if validateBackupChecksum cryptoAvailable snap then
    (.ok (), restoreFromSnapshot db snap)
  else (.err "Backup file checksum validation failed", db)

end Shop

namespace Shop

/-- Well-formed snapshot tables: schema-valid members and distinct ids per
collection (the unvalidated collections only need distinct ids). -/
def TablesWF (t : Tables) : Prop :=
  t.products.all productValid = true ∧ (t.products.map Product.id).Nodup ∧
  t.sales.all saleValid = true ∧ (t.sales.map Sale.id).Nodup ∧
  t.stock_movements.all stockMovementValid = true ∧
    (t.stock_movements.map StockMovement.id).Nodup ∧
  t.staff.all staffValid = true ∧ (t.staff.map Staff.id).Nodup ∧
  t.business_settings.all settingsValid = true ∧
    (t.business_settings.map BusinessSettings.id).Nodup ∧
  (t.audit_logs.map AuditLog.id).Nodup ∧ (t.counters.map AppCounter.id).Nodup

namespace SalesManager

/-- The numbers contributed by one call's outcome. -/
def issuedOf (db : DB) (r : Res Sale) : List Int :=
  match r with
  | .ok s =>
      match s.receipt with
      | some _ => [CounterManager.getValue db "receipts" + 1]
      | none => []
  | .err _ => []

/-- The receipt numbers issued by a sequence of `recordSale` calls, in
issuance order: one allocator value per successful call that attached a
receipt (failed calls and unattached receipts contribute nothing). -/
def issuedReceiptNumbers : DB → List (GenEnv × RecordSaleParams) → List Int
  | _, [] => []
  | db, c :: rest =>
      issuedOf db (recordSale c.1 db c.2).1 ++
        issuedReceiptNumbers ((recordSale c.1 db c.2).2) rest

end SalesManager

/-! Concrete inputs used by the witness theorems. -/

def uuidA : String := "aaaaaaaa-aaaa-4aaa-8aaa-aaaaaaaaaaaa"
def uuidB : String := "bbbbbbbb-bbbb-4bbb-8bbb-bbbbbbbbbbbb"
def uuidS : String := "cccccccc-cccc-4ccc-8ccc-cccccccccccc"
def uuidR : String := "dddddddd-dddd-4ddd-8ddd-dddddddddddd"
def uuidL : String := "eeeeeeee-eeee-4eee-8eee-eeeeeeeeeeee"
def uuidS2 : String := "ffffffff-ffff-4fff-8fff-ffffffffffff"
def uuidR2 : String := "abababab-abab-4bab-8bab-abababababab"
def uuidL2 : String := "cdcdcdcd-cdcd-4dcd-8dcd-cdcdcdcdcdcd"
def nowW : String := "2024-01-01T00:00:00.000Z"

def prodA : Product := ⟨uuidA, "Soda", "SKU-A", none, none, 50, 100, 10, 0, nowW, nowW⟩
def prodB : Product := ⟨uuidB, "Bread", "SKU-B", none, none, 20, 40, 1, 0, nowW, nowW⟩
def dbW : DB := { emptyDB with products := [prodA, prodB] }

def gW : SalesManager.GenEnv := ⟨uuidS, nowW, uuidR, uuidL, 0⟩
def gW2 : SalesManager.GenEnv := ⟨uuidS2, nowW, uuidR2, uuidL2, 0⟩
def pW : SalesManager.RecordSaleParams := ⟨[⟨prodA, 2, none⟩], .cash, none, none⟩
def pW4 : SalesManager.RecordSaleParams :=
  ⟨[⟨prodA, 2, none⟩, ⟨prodB, 5, none⟩], .cash, none, none⟩

def itemAW : SaleItem := ⟨uuidA, "Soda", 2, 100, 200⟩
def rcW : Receipt := ⟨uuidR, uuidS, "R-000001", nowW, 200, .cash⟩
def sW : Sale := ⟨uuidS, nowW, [itemAW], 200, .cash, none, none, some rcW, .completed⟩

/-- The state `recordSale` leaves behind when the second item of `pW4` fails:
the first item's decrement persisted, nothing else changed. -/
def dbW1 : DB := { emptyDB with products := [{ prodA with current_stock := 8 }, prodB] }

def saleW : Sale := ⟨uuidS, nowW, [itemAW], 200, .cash, none, none, none, .completed⟩
def dbW6 : DB := { emptyDB with sales := [saleW] }

def badSale : Sale :=
  { id := uuidS, date := nowW, items := [⟨uuidA, "Soda", 1, 5, 7⟩], total_amount := 3
    payment_method := .cash, staff_id := none, customer := none, receipt := none
    status := .completed }

def tsW : String := "2024-01-01T00:00:00.000Z"

def snapZero : BackupSnapshot :=
  { schemaVersion := 1, backupVersion := "1.0.0", timestamp := tsW, counters := []
    tables := tablesOf emptyDB, checksum := "" }

/-- A snapshot whose stored checksum does satisfy the validator's convention. -/
def snapGood : BackupSnapshot :=
  { snapZero with checksum := calculateChecksumStr false (snapshotJsonSansChecksum snapZero) }

/-- A snapshot whose stored checksum is wrong. -/
def snapBad : BackupSnapshot := { snapZero with checksum := "deadbeef" }

end Shop

namespace Shop

/-! Helper lemmas about the storage primitives. -/

theorem findBy_some_id {idOf : α → String} {i : String} {l : List α} {x : α}
    (h : findBy idOf i l = some x) : idOf x = i := by
  have := List.find?_some h
  simpa using this

theorem findBy_upsertBy_self (idOf : α → String) (a : α) (l : List α) :
    findBy idOf (idOf a) (upsertBy idOf a l) = some a := by
  induction l with
  | nil => simp [upsertBy, findBy]
  | cons y ys ih =>
      by_cases h : idOf y = idOf a
      · simp [upsertBy, findBy, h]
      · simp only [upsertBy, if_neg h]
        simpa [findBy, h] using ih

theorem findBy_upsertBy_other (idOf : α → String) (a : α) (l : List α) (i : String)
    (h : i ≠ idOf a) : findBy idOf i (upsertBy idOf a l) = findBy idOf i l := by
  have ha : (idOf a == i) = false := by
    simp only [beq_eq_false_iff_ne, ne_eq]
    exact fun hh => h hh.symm
  induction l with
  | nil => simp [upsertBy, findBy, List.find?, ha]
  | cons y ys ih =>
      by_cases hy : idOf y = idOf a
      · have h1 : (idOf y == i) = false := by
          simp only [beq_eq_false_iff_ne, ne_eq]
          exact fun hh => h (hh ▸ hy)
        simp [upsertBy, hy, findBy, List.find?, h1, ha]
      · by_cases hyi : idOf y = i
        · simp only [upsertBy, if_neg hy]
          simp [findBy, List.find?, hyi]
        · have h1 : (idOf y == i) = false := by
            simp only [beq_eq_false_iff_ne, ne_eq]
            exact hyi
          simp only [upsertBy, if_neg hy]
          simp only [findBy, List.find?, h1] at ih ⊢
          exact ih

theorem mem_upsertBy {idOf : α → String} {a x : α} {l : List α} :
    x ∈ upsertBy idOf a l → x = a ∨ x ∈ l := by
  induction l with
  | nil => intro h; simpa [upsertBy] using h
  | cons y ys ih =>
      intro h
      by_cases hy : idOf y = idOf a
      · simp only [upsertBy, if_pos hy] at h
        rcases List.mem_cons.mp h with h' | h'
        · exact Or.inl h'
        · exact Or.inr (List.mem_cons_of_mem _ h')
      · simp only [upsertBy, if_neg hy] at h
        rcases List.mem_cons.mp h with h' | h'
        · exact Or.inr (by simp [h'])
        · rcases ih h' with h'' | h''
          · exact Or.inl h''
          · exact Or.inr (List.mem_cons_of_mem _ h'')

theorem foldl_upsertBy_nodup (idOf : α → String) (items : List α)
    (hnd : (items.map idOf).Nodup) :
    ∀ acc : List α, (∀ x ∈ items, findBy idOf (idOf x) acc = none) →
      items.foldl (fun acc x => upsertBy idOf x acc) acc = acc ++ items := by
  induction items with
  | nil => intro acc _; simp
  | cons y ys ih =>
      intro acc hacc
      simp only [List.foldl_cons]
      have hy : findBy idOf (idOf y) acc = none := hacc y (by simp)
      have hups : upsertBy idOf y acc = acc ++ [y] := by
        clear ih hacc hnd
        induction acc with
        | nil => simp [upsertBy]
        | cons z zs ihz =>
            simp only [findBy, List.find?] at hy
            by_cases hz : idOf z = idOf y
            · simp [hz] at hy
            · have : ¬(idOf z == idOf y) = true := by simpa using hz
              simp only [this, Bool.false_eq_true, if_neg] at hy
              simp only [upsertBy, if_neg hz, List.cons_append, List.cons.injEq, true_and]
              exact ihz (by simpa [findBy] using hy)
      rw [hups]
      have hnd' : (ys.map idOf).Nodup := (List.nodup_cons.mp (by simpa using hnd)).2
      have hyni : idOf y ∉ ys.map idOf := (List.nodup_cons.mp (by simpa using hnd)).1
      rw [ih hnd' (acc ++ [y]) ?_]
      · simp
      · intro x hx
        have hxy : idOf x ≠ idOf y := by
          intro hh
          exact hyni (hh ▸ List.mem_map_of_mem idOf hx)
        have h1 : findBy idOf (idOf x) acc = none := hacc x (by simp [hx])
        have h2 : findBy idOf (idOf x) (acc ++ [y]) = none := by
          have hyx : (idOf y == idOf x) = false := by
            simp only [beq_eq_false_iff_ne, ne_eq]
            exact fun hh => hxy hh.symm
          simp only [findBy, List.find?_append] at h1 ⊢
          rw [h1]
          simp [List.find?, hyx]
        exact h2

theorem findBy_nil (idOf : α → String) (i : String) : findBy idOf i ([] : List α) = none := rfl

theorem clearStore_eq_nil (idOf : α → String) (l : List α) : clearStore idOf l = [] := by
  apply List.filter_eq_nil_iff.mpr
  intro a ha
  simp [deleteManyBy, List.elem_eq_mem, List.mem_map]
  exact ⟨a, ha, rfl⟩

theorem clearAllStores_eq_empty (db : DB) : clearAllStores db = emptyDB := by
  simp [clearAllStores, clearStore_eq_nil, emptyDB]

end Shop

namespace Shop

/-! Frame lemmas: each save touches only its own collection. -/

theorem saveProduct_frame (db : DB) (p : Product) :
    ((saveProduct db p).2).sales = db.sales ∧
    ((saveProduct db p).2).counters = db.counters ∧
    ((saveProduct db p).2).business_settings = db.business_settings ∧
    ((saveProduct db p).2).audit_logs = db.audit_logs := by
  unfold saveProduct
  split <;> exact ⟨rfl, rfl, rfl, rfl⟩

theorem saveSale_frame (db : DB) (s : Sale) :
    ((saveSale db s).2).products = db.products ∧
    ((saveSale db s).2).counters = db.counters ∧
    ((saveSale db s).2).business_settings = db.business_settings ∧
    ((saveSale db s).2).audit_logs = db.audit_logs := by
  unfold saveSale
  split <;> exact ⟨rfl, rfl, rfl, rfl⟩

theorem saveCounter_frame (db : DB) (c : AppCounter) :
    ((saveCounter db c).2).products = db.products ∧
    ((saveCounter db c).2).sales = db.sales ∧
    ((saveCounter db c).2).business_settings = db.business_settings := by
  exact ⟨rfl, rfl, rfl⟩

theorem saveAuditLog_frame (db : DB) (a : AuditLog) :
    ((saveAuditLog db a).2).products = db.products ∧
    ((saveAuditLog db a).2).sales = db.sales ∧
    ((saveAuditLog db a).2).counters = db.counters ∧
    ((saveAuditLog db a).2).business_settings = db.business_settings := by
  exact ⟨rfl, rfl, rfl, rfl⟩

namespace ProductManager

/-- On any failure `updateStock` has written nothing: the state is unchanged. -/
theorem updateStock_err_frame (now : String) (db : DB) (productId : String) (delta : Int)
    (e : String) (h : (updateStock now db productId delta).1 = .err e) :
    (updateStock now db productId delta).2 = db := by
  rcases hf : findBy Product.id productId db.products with _ | p
  · simp [updateStock, hf]
  · by_cases hneg : p.current_stock + delta < 0
    · simp [updateStock, hf, hneg]
    · by_cases hval :
        productValid { p with current_stock := p.current_stock + delta, updated_at := now } = true
      · simp [updateStock, hf, hneg, hval, saveProduct] at h
      · simp [updateStock, hf, hneg, hval, saveProduct]

theorem updateStock_frame (now : String) (db : DB) (productId : String) (delta : Int) :
    ((updateStock now db productId delta).2).sales = db.sales ∧
    ((updateStock now db productId delta).2).counters = db.counters ∧
    ((updateStock now db productId delta).2).business_settings = db.business_settings ∧
    ((updateStock now db productId delta).2).audit_logs = db.audit_logs := by
  rcases hf : findBy Product.id productId db.products with _ | p
  · simp [updateStock, hf]
  · by_cases hneg : p.current_stock + delta < 0
    · simp [updateStock, hf, hneg]
    · by_cases hval :
        productValid { p with current_stock := p.current_stock + delta, updated_at := now } = true
      · simp [updateStock, hf, hneg, hval, saveProduct]
      · simp [updateStock, hf, hneg, hval, saveProduct]

/-- A successful `updateStock` stores exactly the read product with the delta
applied and the timestamp refreshed. -/
theorem updateStock_ok (now : String) (db : DB) (productId : String) (delta : Int)
    (q : Product) (h : (updateStock now db productId delta).1 = .ok q) :
    ∃ p, findBy Product.id productId db.products = some p ∧
      q = { p with current_stock := p.current_stock + delta, updated_at := now } ∧
      0 ≤ p.current_stock + delta ∧
      (updateStock now db productId delta).2 =
        { db with products := upsertBy Product.id q db.products } := by
  rcases hf : findBy Product.id productId db.products with _ | p
  · simp [updateStock, hf] at h
  · by_cases hneg : p.current_stock + delta < 0
    · simp [updateStock, hf, hneg] at h
    · by_cases hval :
        productValid { p with current_stock := p.current_stock + delta, updated_at := now } = true
      · simp only [updateStock, hf, hneg, if_false, hval, if_true, saveProduct] at h ⊢
        have hq := (Res.ok.injEq _ _).mp h
        refine ⟨p, rfl, hq.symm, by simpa using le_of_not_lt hneg, ?_⟩
        simp [hneg, hval, hq]
      · simp [updateStock, hf, hneg, hval, saveProduct] at h

/-- `updateStock` leaves every other product record alone. -/
theorem updateStock_findBy_other (now : String) (db : DB) (productId : String)
    (delta : Int) (i : String) (hne : i ≠ productId) :
    findBy Product.id i ((updateStock now db productId delta).2).products =
      findBy Product.id i db.products := by
  rcases hf : findBy Product.id productId db.products with _ | p
  · simp [updateStock, hf]
  · by_cases hneg : p.current_stock + delta < 0
    · simp [updateStock, hf, hneg]
    · by_cases hval :
        productValid { p with current_stock := p.current_stock + delta, updated_at := now } = true
      · simp only [updateStock, hf, hneg, if_false, hval, if_true, saveProduct]
        exact findBy_upsertBy_other Product.id _ db.products i
          (by simpa using fun hh => hne (hh.trans (findBy_some_id hf)))
      · simp [updateStock, hf, hneg, hval, saveProduct]

/-- `updateStock` preserves nonnegativity of every stored stock. -/
theorem updateStock_nonneg (now : String) (db : DB) (productId : String) (delta : Int)
    (h : ∀ x ∈ db.products, 0 ≤ x.current_stock) :
    ∀ x ∈ ((updateStock now db productId delta).2).products, 0 ≤ x.current_stock := by
  intro x hx
  rcases hf : findBy Product.id productId db.products with _ | p
  · simp only [updateStock, hf] at hx
    exact h x hx
  · by_cases hneg : p.current_stock + delta < 0
    · simp only [updateStock, hf, hneg, if_true] at hx
      exact h x hx
    · by_cases hval :
        productValid { p with current_stock := p.current_stock + delta, updated_at := now } = true
      · simp only [updateStock, hf, hneg, if_false, hval, if_true, saveProduct] at hx
        rcases mem_upsertBy hx with h' | h'
        · rw [h']
          simpa using le_of_not_lt hneg
        · exact h x h'
      · simp only [updateStock, hf, hneg, if_false, hval, saveProduct] at hx
        simp at hx
        exact h x hx

end ProductManager

end Shop

namespace Shop

namespace CounterManager

theorem increment_ok (now : String) (db : DB) (counterId : String) (delta : Int) :
    (increment now db counterId delta).1 = .ok (getValue db counterId + delta) := by
  rcases hf : findBy AppCounter.id counterId db.counters with _ | c <;>
    simp [increment, saveCounter, getValue, hf]

theorem increment_getValue (now : String) (db : DB) (counterId : String) (delta : Int) :
    getValue ((increment now db counterId delta).2) counterId =
      getValue db counterId + delta := by
  rcases hf : findBy AppCounter.id counterId db.counters with _ | c
  · have hself := findBy_upsertBy_self AppCounter.id
      (⟨counterId, delta, now⟩ : AppCounter) db.counters
    simp [increment, saveCounter, getValue, hf, hself]
  · have hself := findBy_upsertBy_self AppCounter.id
      (⟨counterId, c.value + delta, now⟩ : AppCounter) db.counters
    simp [increment, saveCounter, getValue, hf, hself]

theorem increment_frame (now : String) (db : DB) (counterId : String) (delta : Int) :
    ((increment now db counterId delta).2).products = db.products ∧
    ((increment now db counterId delta).2).sales = db.sales ∧
    ((increment now db counterId delta).2).business_settings = db.business_settings := by
  unfold increment
  rcases hf : findBy AppCounter.id counterId db.counters with _ | c <;>
    simp [hf, saveCounter]

end CounterManager

namespace AuditManager

theorem logAction_frame (genId now : String) (db : DB) (action entity_type : String)
    (entity_id staff_id reason : Option String) (metadata : Option (List (String × MetaVal))) :
    ((logAction genId now db action entity_type entity_id staff_id reason metadata).2).products =
        db.products ∧
    ((logAction genId now db action entity_type entity_id staff_id reason metadata).2).sales =
        db.sales ∧
    ((logAction genId now db action entity_type entity_id staff_id reason metadata).2).counters =
        db.counters ∧
    ((logAction genId now db action entity_type entity_id staff_id reason
        metadata).2).business_settings = db.business_settings := by
  exact ⟨rfl, rfl, rfl, rfl⟩

end AuditManager

namespace SalesManager

/-- The deduction loop only ever touches the products collection. -/
theorem deductLoop_frame (now : String) (items : List SaleItem) (db : DB) :
    ((deductLoop now db items).2).sales = db.sales ∧
    ((deductLoop now db items).2).counters = db.counters ∧
    ((deductLoop now db items).2).business_settings = db.business_settings ∧
    ((deductLoop now db items).2).audit_logs = db.audit_logs := by
  induction items generalizing db with
  | nil => exact ⟨rfl, rfl, rfl, rfl⟩
  | cons it rest ih =>
      simp only [deductLoop]
      rcases hstep : ProductManager.updateStock now db it.product_id (-it.quantity)
        with ⟨r, db'⟩
      have hframe := ProductManager.updateStock_frame now db it.product_id (-it.quantity)
      rw [hstep] at hframe
      cases r with
      | ok q =>
          simp only
          have := ih db'
          exact ⟨(this.1.trans hframe.1), (this.2.1.trans hframe.2.1),
            (this.2.2.1.trans hframe.2.2.1), (this.2.2.2.trans hframe.2.2.2)⟩
      | err e => exact hframe

/-- The deduction loop preserves nonnegativity of every stored stock. -/
theorem deductLoop_nonneg (now : String) (items : List SaleItem) (db : DB)
    (h : ∀ x ∈ db.products, 0 ≤ x.current_stock) :
    ∀ x ∈ ((deductLoop now db items).2).products, 0 ≤ x.current_stock := by
  induction items generalizing db with
  | nil => exact h
  | cons it rest ih =>
      simp only [deductLoop]
      rcases hstep : ProductManager.updateStock now db it.product_id (-it.quantity)
        with ⟨r, db'⟩
      have hnn := ProductManager.updateStock_nonneg now db it.product_id (-it.quantity) h
      rw [hstep] at hnn
      cases r with
      | ok q => exact ih db' hnn
      | err e => exact hnn

/-- Splitting the deduction loop at a successful first half. -/
theorem deductLoop_append (now : String) (pre rest : List SaleItem) (db db₁ : DB)
    (h : deductLoop now db pre = (none, db₁)) :
    deductLoop now db (pre ++ rest) = deductLoop now db₁ rest := by
  induction pre generalizing db with
  | nil =>
      simp only [deductLoop] at h
      injection h with _ h2
      simp only [List.nil_append]
      rw [h2]
  | cons it pre' ih =>
      simp only [deductLoop, List.cons_append] at h ⊢
      rcases hstep : ProductManager.updateStock now db it.product_id (-it.quantity)
        with ⟨r, db'⟩
      rw [hstep] at h
      cases r with
      | ok q =>
          simp only at h ⊢
          exact ih db' h
      | err e => simp at h

end SalesManager

end Shop

namespace Shop

theorem getValue_congr (db db' : DB) (h : db'.counters = db.counters) (n : String) :
    CounterManager.getValue db' n = CounterManager.getValue db n := by
  unfold CounterManager.getValue findBy
  rw [h]

namespace SalesManager

/-- The loop never touches products outside the processed items. -/
theorem deductLoop_findBy_not_mem (now : String) (items : List SaleItem) (db : DB)
    (i : String) (h : i ∉ items.map SaleItem.product_id) :
    findBy Product.id i ((deductLoop now db items).2).products =
      findBy Product.id i db.products := by
  induction items generalizing db with
  | nil => rfl
  | cons it rest ih =>
      simp only [List.map_cons, List.mem_cons, not_or] at h
      simp only [deductLoop]
      rcases hstep : ProductManager.updateStock now db it.product_id (-it.quantity)
        with ⟨r, db'⟩
      have hother := ProductManager.updateStock_findBy_other now db it.product_id
        (-it.quantity) i h.1
      rw [hstep] at hother
      cases r with
      | ok q => exact (ih db' h.2).trans hother
      | err e => exact hother

/-- A failing adjustment stops the loop with an error naming that product and
the state exactly as the earlier items left it. -/
theorem deductLoop_fail_at (now : String) (db₁ : DB) (bad : SaleItem)
    (rest : List SaleItem) (e0 : String)
    (hbad : (ProductManager.updateStock now db₁ bad.product_id (-bad.quantity)).1 = .err e0) :
    deductLoop now db₁ (bad :: rest) =
      (some ("Stock update failed for " ++ bad.product_name), db₁) := by
  simp only [deductLoop]
  rcases hstep : ProductManager.updateStock now db₁ bad.product_id (-bad.quantity)
    with ⟨r, db''⟩
  have hframe := ProductManager.updateStock_err_frame now db₁ bad.product_id (-bad.quantity) e0
  rw [hstep] at hframe hbad
  cases r with
  | ok q => simp at hbad
  | err e =>
      have h2 : db'' = db₁ := hframe hbad
      simp [h2]

/-- Each successfully processed item's decrement is present in the final state
when the processed product ids are distinct. -/
theorem deductLoop_ok_stocks (now : String) (items : List SaleItem) (db db₁ : DB)
    (hnd : (items.map SaleItem.product_id).Nodup)
    (h : deductLoop now db items = (none, db₁)) :
    ∀ it ∈ items, ∀ p, findBy Product.id it.product_id db.products = some p →
      findBy Product.id it.product_id db₁.products =
        some { p with current_stock := p.current_stock + -it.quantity, updated_at := now } := by
  induction items generalizing db with
  | nil => intro it hit; exact absurd hit (List.not_mem_nil it)
  | cons it0 rest ih =>
      simp only [deductLoop] at h
      rcases hstep : ProductManager.updateStock now db it0.product_id (-it0.quantity)
        with ⟨r, dbA⟩
      rw [hstep] at h
      cases r with
      | err e => simp at h
      | ok q =>
          simp only at h
          have hnd0 : it0.product_id ∉ rest.map SaleItem.product_id :=
            (List.nodup_cons.mp (by simpa using hnd)).1
          have hndr : (rest.map SaleItem.product_id).Nodup :=
            (List.nodup_cons.mp (by simpa using hnd)).2
          intro it hit p hp
          rcases List.mem_cons.mp hit with hit0 | hitr
          · subst hit0
            obtain ⟨p', hp', hq, -, hdbA⟩ :=
              ProductManager.updateStock_ok now db it.product_id (-it.quantity) q
                (by rw [hstep])
            rw [hp] at hp'
            injection hp' with hp'
            subst hp'
            have hqid : Product.id q = it.product_id := by
              rw [hq]
              show Product.id p = it.product_id
              exact findBy_some_id hp
            have hfa : findBy Product.id it.product_id dbA.products = some q := by
              have hself := findBy_upsertBy_self Product.id q db.products
              rw [hqid] at hself
              have : dbA = (ProductManager.updateStock now db it.product_id (-it.quantity)).2 := by
                rw [hstep]
              rw [this, hdbA]
              exact hself
            have hrest := deductLoop_findBy_not_mem now rest dbA it.product_id hnd0
            rw [h] at hrest
            rw [hrest, hfa, hq]
          · have hne : it.product_id ≠ it0.product_id := by
              intro hh
              exact hnd0 (hh ▸ List.mem_map_of_mem SaleItem.product_id hitr)
            have hother := ProductManager.updateStock_findBy_other now db it0.product_id
              (-it0.quantity) it.product_id hne
            rw [hstep] at hother
            simp only at hother
            exact ih dbA hndr h it hitr p (hother.trans hp)

/-- The restoration loop, when it succeeds, only ever touches products. -/
theorem restoreStock_none_frame (now : String) (sale : Sale) (items : List SaleItem)
    (db db₂ : DB) (h : restoreStock now sale db items = (none, db₂)) :
    db₂.sales = db.sales ∧ db₂.counters = db.counters ∧
    db₂.business_settings = db.business_settings := by
  induction items generalizing db with
  | nil =>
      simp only [restoreStock] at h
      injection h with _ h2
      rw [← h2]
      exact ⟨rfl, rfl, rfl⟩
  | cons it rest ih =>
      simp only [restoreStock] at h
      rcases hstep : ProductManager.updateStock now db it.product_id it.quantity
        with ⟨r, db'⟩
      rw [hstep] at h
      cases r with
      | err e => simp at h
      | ok q =>
          simp only at h
          have hframe := ProductManager.updateStock_frame now db it.product_id it.quantity
          rw [hstep] at hframe
          have := ih db' h
          exact ⟨this.1.trans hframe.1, this.2.1.trans hframe.2.1,
            this.2.2.trans hframe.2.2.1⟩

/-- Splitting the restoration loop at a successful first half. -/
theorem restoreStock_append (now : String) (sale : Sale) (pre rest : List SaleItem)
    (db db₁ : DB) (h : restoreStock now sale db pre = (none, db₁)) :
    restoreStock now sale db (pre ++ rest) = restoreStock now sale db₁ rest := by
  induction pre generalizing db with
  | nil =>
      simp only [restoreStock] at h
      injection h with _ h2
      simp only [List.nil_append]
      rw [h2]
  | cons it pre' ih =>
      simp only [restoreStock, List.cons_append] at h ⊢
      rcases hstep : ProductManager.updateStock now db it.product_id it.quantity
        with ⟨r, db'⟩
      rw [hstep] at h
      cases r with
      | ok q =>
          simp only at h ⊢
          exact ih db' h
      | err e => simp at h

/-- A failing restoration stops the loop, saving the original sale back. -/
theorem restoreStock_fail_at (now : String) (sale : Sale) (db₁ : DB) (bad : SaleItem)
    (rest : List SaleItem) (e0 : String)
    (hbad : (ProductManager.updateStock now db₁ bad.product_id bad.quantity).1 = .err e0) :
    restoreStock now sale db₁ (bad :: rest) =
      (some ("Failed to reverse stock for " ++ bad.product_name), (saveSale db₁ sale).2) := by
  simp only [restoreStock]
  rcases hstep : ProductManager.updateStock now db₁ bad.product_id bad.quantity
    with ⟨r, db''⟩
  have hframe := ProductManager.updateStock_err_frame now db₁ bad.product_id bad.quantity e0
  rw [hstep] at hframe hbad
  cases r with
  | ok q => simp at hbad
  | err e =>
      have h2 : db'' = db₁ := hframe hbad
      simp [h2]

theorem restoreStock_findBy_not_mem (now : String) (sale : Sale) (items : List SaleItem)
    (i : String) :
    ∀ db db₂ : DB, i ∉ items.map SaleItem.product_id →
      restoreStock now sale db items = (none, db₂) →
      findBy Product.id i db₂.products = findBy Product.id i db.products := by
  induction items with
  | nil =>
      intro db db₂ _ hok
      simp only [restoreStock] at hok
      injection hok with _ h2
      rw [← h2]
  | cons it rest ih =>
      intro db db₂ h hok
      simp only [List.map_cons, List.mem_cons, not_or] at h
      simp only [restoreStock] at hok
      rcases hstep : ProductManager.updateStock now db it.product_id it.quantity
        with ⟨r, db'⟩
      rw [hstep] at hok
      cases r with
      | err e => simp at hok
      | ok q =>
          simp only at hok
          have hother := ProductManager.updateStock_findBy_other now db it.product_id
            it.quantity i h.1
          rw [hstep] at hother
          exact (ih db' db₂ h.2 hok).trans hother

/-- Each successfully restored item's increment is present in the final state
when the processed product ids are distinct. -/
theorem restoreStock_ok_stocks (now : String) (sale : Sale) (items : List SaleItem)
    (db db₁ : DB) (hnd : (items.map SaleItem.product_id).Nodup)
    (h : restoreStock now sale db items = (none, db₁)) :
    ∀ it ∈ items, ∀ p, findBy Product.id it.product_id db.products = some p →
      findBy Product.id it.product_id db₁.products =
        some { p with current_stock := p.current_stock + it.quantity, updated_at := now } := by
  induction items generalizing db with
  | nil => intro it hit; exact absurd hit (List.not_mem_nil it)
  | cons it0 rest ih =>
      simp only [restoreStock] at h
      rcases hstep : ProductManager.updateStock now db it0.product_id it0.quantity
        with ⟨r, dbA⟩
      rw [hstep] at h
      cases r with
      | err e => simp at h
      | ok q =>
          simp only at h
          have hnd0 : it0.product_id ∉ rest.map SaleItem.product_id :=
            (List.nodup_cons.mp (by simpa using hnd)).1
          have hndr : (rest.map SaleItem.product_id).Nodup :=
            (List.nodup_cons.mp (by simpa using hnd)).2
          intro it hit p hp
          rcases List.mem_cons.mp hit with hit0 | hitr
          · subst hit0
            obtain ⟨p', hp', hq, -, hdbA⟩ :=
              ProductManager.updateStock_ok now db it.product_id it.quantity q
                (by rw [hstep])
            rw [hp] at hp'
            injection hp' with hp'
            subst hp'
            have hqid : Product.id q = it.product_id := by
              rw [hq]
              show Product.id p = it.product_id
              exact findBy_some_id hp
            have hfa : findBy Product.id it.product_id dbA.products = some q := by
              have hself := findBy_upsertBy_self Product.id q db.products
              rw [hqid] at hself
              have : dbA = (ProductManager.updateStock now db it.product_id it.quantity).2 := by
                rw [hstep]
              rw [this, hdbA]
              exact hself
            have hrest := restoreStock_findBy_not_mem now sale rest it.product_id dbA db₁ hnd0 h
            rw [hrest, hfa, hq]
          · have hne : it.product_id ≠ it0.product_id := by
              intro hh
              exact hnd0 (hh ▸ List.mem_map_of_mem SaleItem.product_id hitr)
            have hother := ProductManager.updateStock_findBy_other now db it0.product_id
              it0.quantity it.product_id hne
            rw [hstep] at hother
            simp only at hother
            exact ih dbA hndr h it hitr p (hother.trans hp)

end SalesManager

end Shop

namespace Shop

namespace SalesManager

/-- What the receipt/audit tail of `recordSale` does: it always succeeds,
advances the receipts counter by exactly one, leaves products untouched, and
returns the saved sale, possibly with the numbered receipt attached. -/
theorem recordSaleTail_spec (g : GenEnv) (params : RecordSaleParams) (sale : Sale)
    (db2 : DB) :
    (((recordSaleTail g params sale db2).2).products = db2.products) ∧
    (CounterManager.getValue ((recordSaleTail g params sale db2).2) "receipts" =
      CounterManager.getValue db2 "receipts" + 1) ∧
    (∀ s, (recordSaleTail g params sale db2).1 = .ok s →
      s.status = sale.status ∧ s.items = sale.items ∧
      s.total_amount = sale.total_amount ∧
      (sale.receipt = none → ∀ rc, s.receipt = some rc →
        rc = mkReceipt g sale (CounterManager.getValue db2 "receipts" + 1))) := by
  simp only [recordSaleTail]
  rcases hinc : CounterManager.increment g.now db2 "receipts" 1 with ⟨rres, db3⟩
  have hok := CounterManager.increment_ok g.now db2 "receipts" 1
  have hgv := CounterManager.increment_getValue g.now db2 "receipts" 1
  have hfr := CounterManager.increment_frame g.now db2 "receipts" 1
  rw [hinc] at hok hgv hfr
  simp only at hok hgv hfr
  subst hok
  simp only
  by_cases hrv :
      receiptValid (mkReceipt g sale (CounterManager.getValue db2 "receipts" + 1)) = true
  · rw [if_pos hrv]
    have hsf := saveSale_frame db3
      { sale with receipt := some (mkReceipt g sale (CounterManager.getValue db2 "receipts" + 1)) }
    have half := AuditManager.logAction_frame g.auditId g.now
      (saveSale db3 { sale with
        receipt := some (mkReceipt g sale (CounterManager.getValue db2 "receipts" + 1)) }).2
      "sale_recorded" "sale" (some sale.id) params.staff_id none
      (some [("total", .num sale.total_amount),
             ("items_count", .num (params.items.map mkSaleItem).length)])
    refine ⟨?_, ?_, ?_⟩
    · rw [half.1, hsf.1, hfr.1]
    · rw [getValue_congr _ _ half.2.2.1 "receipts",
         getValue_congr _ _ hsf.2.1 "receipts", hgv]
    · intro s hs
      simp only [Res.ok.injEq] at hs
      subst hs
      exact ⟨rfl, rfl, rfl, fun _ rc hrc => by
        simp only [Option.some.injEq] at hrc
        exact hrc.symm⟩
  · rw [if_neg hrv]
    have half := AuditManager.logAction_frame g.auditId g.now db3
      "sale_recorded" "sale" (some sale.id) params.staff_id none
      (some [("total", .num sale.total_amount),
             ("items_count", .num (params.items.map mkSaleItem).length)])
    refine ⟨?_, ?_, ?_⟩
    · rw [half.1, hfr.1]
    · rw [getValue_congr _ _ half.2.2.1 "receipts", hgv]
    · intro s hs
      simp only [Res.ok.injEq] at hs
      subst hs
      refine ⟨rfl, rfl, rfl, fun hnone rc hrc => ?_⟩
      rw [hnone] at hrc
      exact absurd hrc (by simp)

/-- Branch characterization of `recordSale`. -/
theorem recordSale_cases (g : GenEnv) (db : DB) (params : RecordSaleParams) :
    (params.items.isEmpty = true → recordSale g db params = (.err "No items in sale", db)) ∧
    (∀ e db1, params.items.isEmpty = false →
      deductLoop g.now db (params.items.map mkSaleItem) = (some e, db1) →
      recordSale g db params = (.err e, db1)) ∧
    (∀ db1 e db2, params.items.isEmpty = false →
      deductLoop g.now db (params.items.map mkSaleItem) = (none, db1) →
      saveSale db1 (mkSale g params) = (.err e, db2) →
      recordSale g db params = (.err e, db2)) ∧
    (∀ db1 x db2, params.items.isEmpty = false →
      deductLoop g.now db (params.items.map mkSaleItem) = (none, db1) →
      saveSale db1 (mkSale g params) = (.ok x, db2) →
      recordSale g db params = recordSaleTail g params (mkSale g params) db2) := by
  refine ⟨?_, ?_, ?_, ?_⟩
  · intro hemp
    simp [recordSale, hemp]
  · intro e db1 hemp hloop
    simp [recordSale, hemp, hloop]
  · intro db1 e db2 hemp hloop hsave
    simp [recordSale, hemp, hloop, hsave]
  · intro db1 x db2 hemp hloop hsave
    simp [recordSale, hemp, hloop, hsave]

/-- `recordSale` preserves nonnegativity of every stored stock. -/
theorem recordSale_nonneg (g : GenEnv) (db : DB) (params : RecordSaleParams)
    (h : ∀ x ∈ db.products, 0 ≤ x.current_stock) :
    ∀ x ∈ ((recordSale g db params).2).products, 0 ≤ x.current_stock := by
  by_cases hemp : params.items.isEmpty = true
  · rw [(recordSale_cases g db params).1 hemp]
    exact h
  · have hemp' : params.items.isEmpty = false := by simpa using hemp
    rcases hloop : deductLoop g.now db (params.items.map mkSaleItem) with ⟨lr, db1⟩
    have hln := deductLoop_nonneg g.now (params.items.map mkSaleItem) db h
    rw [hloop] at hln
    cases lr with
    | some e =>
        rw [(recordSale_cases g db params).2.1 e db1 hemp' hloop]
        exact hln
    | none =>
        rcases hsave : saveSale db1 (mkSale g params) with ⟨sr, db2⟩
        have hsf := saveSale_frame db1 (mkSale g params)
        rw [hsave] at hsf
        cases sr with
        | err e =>
            rw [(recordSale_cases g db params).2.2.1 db1 e db2 hemp' hloop hsave]
            intro x hx
            rw [hsf.1] at hx
            exact hln x hx
        | ok x =>
            rw [(recordSale_cases g db params).2.2.2 db1 x db2 hemp' hloop hsave]
            intro y hy
            rw [(recordSaleTail_spec g params (mkSale g params) db2).1, hsf.1] at hy
            exact hln y hy

/-- Per-call counter behaviour of `recordSale`: the receipts counter never
decreases, a successful call advances it by exactly one, and an attached
receipt carries that value, rendered `R-` plus the zero-padded number. -/
theorem recordSale_counter_step (g : GenEnv) (db : DB) (params : RecordSaleParams) :
    CounterManager.getValue db "receipts" ≤
      CounterManager.getValue ((recordSale g db params).2) "receipts" ∧
    (∀ s, (recordSale g db params).1 = .ok s →
      CounterManager.getValue ((recordSale g db params).2) "receipts" =
        CounterManager.getValue db "receipts" + 1 ∧
      (∀ rc, s.receipt = some rc →
        rc.number = "R-" ++ pad6 (CounterManager.getValue db "receipts" + 1))) := by
  by_cases hemp : params.items.isEmpty = true
  · rw [(recordSale_cases g db params).1 hemp]
    exact ⟨le_refl _, fun s hs => by simp at hs⟩
  · have hemp' : params.items.isEmpty = false := by simpa using hemp
    rcases hloop : deductLoop g.now db (params.items.map mkSaleItem) with ⟨lr, db1⟩
    have hlf := deductLoop_frame g.now (params.items.map mkSaleItem) db
    rw [hloop] at hlf
    have hgv1 : CounterManager.getValue db1 "receipts" =
        CounterManager.getValue db "receipts" :=
      getValue_congr db db1 hlf.2.1 "receipts"
    cases lr with
    | some e =>
        rw [(recordSale_cases g db params).2.1 e db1 hemp' hloop]
        exact ⟨le_of_eq hgv1.symm, fun s hs => by simp at hs⟩
    | none =>
        rcases hsave : saveSale db1 (mkSale g params) with ⟨sr, db2⟩
        have hsf := saveSale_frame db1 (mkSale g params)
        rw [hsave] at hsf
        have hgv2 : CounterManager.getValue db2 "receipts" =
            CounterManager.getValue db "receipts" :=
          (getValue_congr db1 db2 hsf.2.1 "receipts").trans hgv1
        cases sr with
        | err e =>
            rw [(recordSale_cases g db params).2.2.1 db1 e db2 hemp' hloop hsave]
            exact ⟨le_of_eq hgv2.symm, fun s hs => by simp at hs⟩
        | ok x =>
            rw [(recordSale_cases g db params).2.2.2 db1 x db2 hemp' hloop hsave]
            obtain ⟨-, htgv, hts⟩ := recordSaleTail_spec g params (mkSale g params) db2
            constructor
            · rw [htgv, hgv2]
              exact le_of_lt (lt_add_one _)
            · intro s hs
              obtain ⟨-, -, -, hrc⟩ := hts s hs
              refine ⟨by rw [htgv, hgv2], fun rc hrcs => ?_⟩
              have := hrc rfl rc hrcs
              rw [this, hgv2]
              rfl

end SalesManager

end Shop

namespace Shop

/-- `saleSchema` does not inspect `status`, so flipping it never changes validity. -/
theorem saleValid_set_status (s : Sale) (st : SaleStatus) :
    saleValid { s with status := st } = saleValid s := rfl

theorem saveSale_ok (db : DB) (s : Sale) (x : Sale) (db' : DB)
    (h : saveSale db s = (.ok x, db')) :
    x = s ∧ saleValid s = true ∧
      db' = { db with sales := upsertBy Sale.id s db.sales } := by
  by_cases hv : saleValid s = true
  · simp only [saveSale, hv, if_true] at h
    injection h with h1 h2
    injection h1 with h1
    exact ⟨h1.symm, hv, h2.symm⟩
  · simp only [saveSale, hv, if_false] at h
    simp at h

theorem saveSale_of_valid (db : DB) (s : Sale) (hv : saleValid s = true) :
    saveSale db s = (.ok s, { db with sales := upsertBy Sale.id s db.sales }) := by
  simp [saveSale, hv]

namespace SalesManager

theorem reverseSale_not_allowed (pd : String → Int) (nowMs : Int) (auditId now : String)
    (db : DB) (saleId : String) (reason staffId : Option String)
    (h : canReverseSale pd nowMs db saleId = false) :
    reverseSale pd nowMs auditId now db saleId reason staffId =
      (.err "Sale cannot be reversed - outside allowed time window or already reversed", db) := by
  simp [reverseSale, h]

/-- Step characterization of an allowed `reverseSale`: the status flip is
persisted first, then the stock restoration runs on that state. -/
theorem reverseSale_steps (pd : String → Int) (nowMs : Int) (auditId now : String)
    (db : DB) (saleId : String) (reason staffId : Option String) (sale : Sale)
    (hcan : canReverseSale pd nowMs db saleId = true)
    (hfind : findBy Sale.id saleId db.sales = some sale) :
    (∀ e db1, saveSale db { sale with status := SaleStatus.reversed } = (.err e, db1) →
      reverseSale pd nowMs auditId now db saleId reason staffId =
        (.err "Failed to update sale status", db1)) ∧
    (∀ x db1, saveSale db { sale with status := SaleStatus.reversed } = (.ok x, db1) →
      (∀ e db2, restoreStock now sale db1 sale.items = (some e, db2) →
        reverseSale pd nowMs auditId now db saleId reason staffId = (.err e, db2)) ∧
      (∀ db2, restoreStock now sale db1 sale.items = (none, db2) →
        reverseSale pd nowMs auditId now db saleId reason staffId =
          (.ok { sale with status := SaleStatus.reversed },
            (AuditManager.logAction auditId now db2 "sale_reversed" "sale" (some saleId)
              staffId reason
              (some [("original_total", .num sale.total_amount),
                     ("items_count", .num sale.items.length),
                     ("original_date", .str sale.date)])).2))) := by
  refine ⟨?_, ?_⟩
  · intro e db1 hsave
    simp [reverseSale, hcan, hfind, hsave]
  · intro x db1 hsave
    refine ⟨?_, ?_⟩
    · intro e db2 hrs
      simp [reverseSale, hcan, hfind, hsave, hrs]
    · intro db2 hrs
      simp [reverseSale, hcan, hfind, hsave, hrs]

end SalesManager

/-- Batch insert of a valid batch with distinct ids into an empty store keeps
exactly the batch. -/
theorem saveManyBy_into_nil (valid : α → Bool) (idOf : α → String) (items : List α)
    (hval : items.all valid = true) (hnd : (items.map idOf).Nodup) :
    (saveManyBy valid idOf [] items).2 = items := by
  unfold saveManyBy
  rw [if_pos hval]
  have := foldl_upsertBy_nodup idOf items hnd [] (fun x _ => rfl)
  simpa using this

/-- Restoring well-formed tables into a cleared store reproduces them exactly. -/
theorem tablesOf_insertTables_empty (t : Tables) (hwf : TablesWF t) :
    tablesOf (insertTables emptyDB t) = t := by
  obtain ⟨hp, hpn, hs, hsn, hm, hmn, hst, hstn, hbs, hbsn, han, hcn⟩ := hwf
  have fp : (insertTables emptyDB t).products = t.products := by
    simp only [insertTables, apply_ite DB.products]
    by_cases hpe : t.products.isEmpty = true
    · simp [hpe, List.isEmpty_iff.mp hpe, emptyDB]
    · simp [hpe, emptyDB, saveManyBy_into_nil productValid Product.id t.products hp hpn]
  have fs : (insertTables emptyDB t).sales = t.sales := by
    simp only [insertTables, apply_ite DB.sales]
    by_cases hse : t.sales.isEmpty = true
    · simp [hse, List.isEmpty_iff.mp hse, emptyDB]
    · simp [hse, emptyDB, saveManyBy_into_nil saleValid Sale.id t.sales hs hsn]
  have fm : (insertTables emptyDB t).stock_movements = t.stock_movements := by
    simp only [insertTables, apply_ite DB.stock_movements]
    by_cases hme : t.stock_movements.isEmpty = true
    · simp [hme, List.isEmpty_iff.mp hme, emptyDB]
    · simp [hme, emptyDB,
        saveManyBy_into_nil stockMovementValid StockMovement.id t.stock_movements hm hmn]
  have fst : (insertTables emptyDB t).staff = t.staff := by
    simp only [insertTables, apply_ite DB.staff]
    by_cases hste : t.staff.isEmpty = true
    · simp [hste, List.isEmpty_iff.mp hste, emptyDB]
    · simp [hste, emptyDB, saveManyBy_into_nil staffValid Staff.id t.staff hst hstn]
  have fbs : (insertTables emptyDB t).business_settings = t.business_settings := by
    simp only [insertTables, apply_ite DB.business_settings]
    by_cases hbse : t.business_settings.isEmpty = true
    · simp [hbse, List.isEmpty_iff.mp hbse, emptyDB]
    · simp [hbse, emptyDB,
        saveManyBy_into_nil settingsValid BusinessSettings.id t.business_settings hbs hbsn]
  have fa : (insertTables emptyDB t).audit_logs = t.audit_logs := by
    simp only [insertTables, apply_ite DB.audit_logs]
    by_cases hae : t.audit_logs.isEmpty = true
    · simp [hae, List.isEmpty_iff.mp hae, emptyDB]
    · simp [hae, emptyDB,
        saveManyBy_into_nil (fun _ => true) AuditLog.id t.audit_logs (by simp) han]
  have fc : (insertTables emptyDB t).counters = t.counters := by
    simp only [insertTables, apply_ite DB.counters]
    by_cases hce : t.counters.isEmpty = true
    · simp [hce, List.isEmpty_iff.mp hce, emptyDB]
    · simp [hce, emptyDB,
        saveManyBy_into_nil (fun _ => true) AppCounter.id t.counters (by simp) hcn]
  cases t
  simp only [tablesOf, Tables.mk.injEq]
  exact ⟨fp, fs, fm, fst, fbs, fa, fc⟩

end Shop

namespace Shop

theorem calcTotal_go (l : List SaleItem) :
    ∀ a : Int, l.foldl (fun s i => s + i.subtotal) a = a + (l.map SaleItem.subtotal).sum := by
  induction l with
  | nil => intro a; simp
  | cons i rest ih =>
      intro a
      simp only [List.foldl_cons, List.map_cons, List.sum_cons, ih]
      ring

theorem calcTotal_eq_sum (l : List SaleItem) :
    SalesManager.calcTotal l = (l.map SaleItem.subtotal).sum := by
  simpa using calcTotal_go l 0

namespace SalesManager

/-- A failing restoration loop ends by saving the original sale back. -/
theorem restoreStock_some_inv (now : String) (sale : Sale) (items : List SaleItem) :
    ∀ db e db2, restoreStock now sale db items = (some e, db2) →
      ∃ dbx, db2 = (saveSale dbx sale).2 := by
  induction items with
  | nil =>
      intro db e db2 h
      simp [restoreStock] at h
  | cons it rest ih =>
      intro db e db2 h
      simp only [restoreStock] at h
      rcases hstep : ProductManager.updateStock now db it.product_id it.quantity
        with ⟨r, db'⟩
      rw [hstep] at h
      cases r with
      | ok q =>
          simp only at h
          exact ih db' e db2 h
      | err e' =>
          simp only at h
          injection h with _ h2
          exact ⟨db', h2.symm⟩

/-- A successful `reverseSale` leaves the sale stored with status `reversed`. -/
theorem reverseSale_ok_inv (pd : String → Int) (nowMs : Int) (auditId now : String)
    (db : DB) (saleId : String) (reason staffId : Option String) (s : Sale) (db' : DB)
    (h : reverseSale pd nowMs auditId now db saleId reason staffId = (.ok s, db')) :
    findBy Sale.id saleId db'.sales = some s ∧ s.status = SaleStatus.reversed := by
  cases hcanb : canReverseSale pd nowMs db saleId with
  | false =>
      rw [reverseSale_not_allowed pd nowMs auditId now db saleId reason staffId hcanb] at h
      simp at h
  | true =>
      rcases hf : findBy Sale.id saleId db.sales with _ | sale
      · simp only [reverseSale, hcanb, Bool.not_true, Bool.false_eq_true, if_false, hf] at h
        simp at h
      · rcases hsave : saveSale db { sale with status := SaleStatus.reversed } with ⟨sr, db1⟩
        cases sr with
        | err e =>
            simp only [reverseSale, hcanb, Bool.not_true, Bool.false_eq_true, if_false,
              hf, hsave] at h
            simp at h
        | ok x =>
            rcases hrs : restoreStock now sale db1 sale.items with ⟨rr, db2⟩
            cases rr with
            | some e =>
                simp only [reverseSale, hcanb, Bool.not_true, Bool.false_eq_true, if_false,
                  hf, hsave, hrs] at h
                simp at h
            | none =>
                simp only [reverseSale, hcanb, Bool.not_true, Bool.false_eq_true, if_false,
                  hf, hsave, hrs] at h
                injection h with h1 h2
                injection h1 with h1
                subst h1
                obtain ⟨hx, hv, hdb1⟩ := saveSale_ok db _ x db1 hsave
                have hid : Sale.id { sale with status := SaleStatus.reversed } = saleId := by
                  show Sale.id sale = saleId
                  exact findBy_some_id hf
                have hrsf := restoreStock_none_frame now sale sale.items db1 db2 hrs
                have half := AuditManager.logAction_frame auditId now db2 "sale_reversed"
                  "sale" (some saleId) staffId reason
                  (some [("original_total", .num sale.total_amount),
                         ("items_count", .num sale.items.length),
                         ("original_date", .str sale.date)])
                constructor
                · rw [← h2, half.2.1, hrsf.1, hdb1]
                  simp only
                  have hself := findBy_upsertBy_self Sale.id
                    { sale with status := SaleStatus.reversed } db.sales
                  have h3 : saleId = Sale.id { sale with status := SaleStatus.reversed } :=
                    (findBy_some_id hf).symm
                  rw [h3]
                  exact hself
                · rfl

theorem issuedOf_mem (db : DB) (r : Res Sale) (n : Int) (hn : n ∈ issuedOf db r) :
    n = CounterManager.getValue db "receipts" + 1 ∧
      ∃ s rc, r = .ok s ∧ s.receipt = some rc := by
  cases r with
  | err e => simp [issuedOf] at hn
  | ok s =>
      rcases hrc : s.receipt with _ | rc
      · simp [issuedOf, hrc] at hn
      · simp only [issuedOf, hrc, List.mem_singleton] at hn
        exact ⟨hn, s, rc, rfl, hrc⟩

theorem issuedReceiptNumbers_lb (calls : List (GenEnv × RecordSaleParams)) :
    ∀ db : DB, ∀ n ∈ issuedReceiptNumbers db calls,
      CounterManager.getValue db "receipts" < n := by
  induction calls with
  | nil => intro db n hn; simp [issuedReceiptNumbers] at hn
  | cons c rest ih =>
      intro db n hn
      rcases List.mem_append.mp hn with hh | ht
      · obtain ⟨hn1, -⟩ := issuedOf_mem db _ n hh
        rw [hn1]
        exact lt_add_one _
      · have hmono := (recordSale_counter_step c.1 db c.2).1
        exact lt_of_le_of_lt hmono (ih ((recordSale c.1 db c.2).2) n ht)

theorem issuedReceiptNumbers_pairwise (calls : List (GenEnv × RecordSaleParams)) :
    ∀ db : DB, List.Pairwise (· < ·) (issuedReceiptNumbers db calls) := by
  induction calls with
  | nil => intro db; simp [issuedReceiptNumbers]
  | cons c rest ih =>
      intro db
      simp only [issuedReceiptNumbers]
      apply List.pairwise_append.mpr
      refine ⟨?_, ih ((recordSale c.1 db c.2).2), ?_⟩
      · rcases hr : (recordSale c.1 db c.2).1 with s | e
        · rcases hrc : s.receipt with _ | rc <;> simp [issuedOf, hrc]
        · simp [issuedOf]
      · intro a ha n hn
        obtain ⟨ha1, s, rc, hs, -⟩ := issuedOf_mem db _ a ha
        have hlb := issuedReceiptNumbers_lb rest ((recordSale c.1 db c.2).2) n hn
        have hstep := ((recordSale_counter_step c.1 db c.2).2 s (by rw [hs])).1
        rw [hstep] at hlb
        rw [ha1]
        exact hlb

end SalesManager

end Shop

namespace Shop

/-- C2: `importBackupFile` validates the snapshot's checksum before mutating
any live state: a snapshot whose recomputed digest disagrees with its stored
checksum is rejected with the state untouched — no collection is cleared and
no record inserted; only after successful validation does the restore delete
all existing records of every collection (leaving the empty store) and
bulk-insert the snapshot's tables, which reproduces them exactly when they
are schema-valid with distinct ids. -/
theorem C2_restore_validates_before_mutating (crypto : Bool) (db : DB)
    (snap : BackupSnapshot) :
    (validateBackupChecksum crypto snap = false →
      importBackupFile crypto db snap =
        (.err "Backup file checksum validation failed", db)) ∧
    (validateBackupChecksum crypto snap = true →
      importBackupFile crypto db snap = (.ok (), restoreFromSnapshot db snap) ∧
      clearAllStores db = emptyDB ∧
      restoreFromSnapshot db snap = insertTables emptyDB snap.tables) ∧
    (TablesWF snap.tables →
      tablesOf (restoreFromSnapshot db snap) = snap.tables) := by
  refine ⟨?_, ?_, ?_⟩
  · intro h
    simp [importBackupFile, h]
  · intro h
    refine ⟨by simp [importBackupFile, h], clearAllStores_eq_empty db, ?_⟩
    unfold restoreFromSnapshot
    rw [clearAllStores_eq_empty db]
  · intro hwf
    unfold restoreFromSnapshot
    rw [clearAllStores_eq_empty db]
    exact tablesOf_insertTables_empty snap.tables hwf

set_option maxRecDepth 200000 in
/-- C2 witness: a wrong checksum is rejected leaving the populated store
untouched; a snapshot whose stored checksum matches the validator's recomputed
digest is accepted and restored. -/
theorem C2_witness :
    validateBackupChecksum false snapBad = false ∧
    importBackupFile false dbW snapBad =
      (.err "Backup file checksum validation failed", dbW) ∧
    validateBackupChecksum false snapGood = true ∧
    importBackupFile false dbW snapGood = (.ok (), restoreFromSnapshot dbW snapGood) :=
  ⟨by decide, (C2_restore_validates_before_mutating false dbW snapBad).1 (by decide),
   by decide,
   ((C2_restore_validates_before_mutating false dbW snapGood).2.1 (by decide)).1⟩

/-- C3: for a stored product, `updateStock` fails with "Insufficient stock"
and writes nothing whenever the resulting stock would be negative; on success
the persisted stock is exactly the previous stock plus the delta; hence
nonnegativity of every stored stock is preserved by `updateStock` and by every
decrement `recordSale` performs. -/
theorem C3_updateStock_stock_invariant (now : String) (db : DB) (productId : String)
    (delta : Int) (p : Product)
    (hfind : findBy Product.id productId db.products = some p) :
    (p.current_stock + delta < 0 →
      ProductManager.updateStock now db productId delta = (.err "Insufficient stock", db)) ∧
    (∀ q, (ProductManager.updateStock now db productId delta).1 = .ok q →
      q.current_stock = p.current_stock + delta ∧
      findBy Product.id productId
        ((ProductManager.updateStock now db productId delta).2).products = some q) ∧
    ((∀ x ∈ db.products, 0 ≤ x.current_stock) →
      ∀ x ∈ ((ProductManager.updateStock now db productId delta).2).products,
        0 ≤ x.current_stock) ∧
    (∀ g params, (∀ x ∈ db.products, 0 ≤ x.current_stock) →
      ∀ x ∈ ((SalesManager.recordSale g db params).2).products, 0 ≤ x.current_stock) := by
  refine ⟨?_, ?_, ProductManager.updateStock_nonneg now db productId delta,
    fun g params h => SalesManager.recordSale_nonneg g db params h⟩
  · intro hneg
    simp [ProductManager.updateStock, hfind, hneg]
  · intro q hq
    obtain ⟨p', hp', hqe, -, hdb'⟩ := ProductManager.updateStock_ok now db productId delta q hq
    rw [hfind] at hp'
    injection hp' with hp'
    subst hp'
    constructor
    · rw [hqe]
    · rw [hdb']
      simp only
      have h3 : productId = Product.id q := by
        rw [hqe]
        exact (findBy_some_id hfind).symm
      rw [h3]
      exact findBy_upsertBy_self Product.id q db.products

/-- C3 witness: decrementing a product with stock 1 by 5 fails with
"Insufficient stock" and the store is unchanged. -/
theorem C3_witness :
    ProductManager.updateStock nowW dbW uuidB (-5) = (.err "Insufficient stock", dbW) :=
  (C3_updateStock_stock_invariant nowW dbW uuidB (-5) prodB (by decide)).1 (by decide)

/-- C5: `recordSale` rejects an empty item list; each built item's subtotal is
quantity times the override price when given, else the product's selling
price; and a returned sale is `completed` with `total_amount` equal to the sum
of its items' subtotals. -/
theorem C5_recordSale_totals (g : SalesManager.GenEnv) (db : DB)
    (params : SalesManager.RecordSaleParams) :
    (params.items = [] →
      SalesManager.recordSale g db params = (.err "No items in sale", db)) ∧
    (∀ x : SalesManager.SaleInputItem,
      (SalesManager.mkSaleItem x).subtotal =
        x.price.getD x.product.selling_price * x.quantity) ∧
    (∀ s, (SalesManager.recordSale g db params).1 = .ok s →
      s.status = .completed ∧ s.items = params.items.map SalesManager.mkSaleItem ∧
      s.total_amount = (s.items.map SaleItem.subtotal).sum) := by
  refine ⟨?_, fun x => rfl, ?_⟩
  · intro hnil
    have hemp : params.items.isEmpty = true := by rw [hnil]; rfl
    exact (SalesManager.recordSale_cases g db params).1 hemp
  · intro s hs
    by_cases hemp : params.items.isEmpty = true
    · rw [(SalesManager.recordSale_cases g db params).1 hemp] at hs
      simp at hs
    · have hemp' : params.items.isEmpty = false := by simpa using hemp
      rcases hloop : SalesManager.deductLoop g.now db
          (params.items.map SalesManager.mkSaleItem) with ⟨lr, db1⟩
      cases lr with
      | some e =>
          rw [(SalesManager.recordSale_cases g db params).2.1 e db1 hemp' hloop] at hs
          simp at hs
      | none =>
          rcases hsave : saveSale db1 (SalesManager.mkSale g params) with ⟨sr, db2⟩
          cases sr with
          | err e =>
              rw [(SalesManager.recordSale_cases g db params).2.2.1 db1 e db2
                hemp' hloop hsave] at hs
              simp at hs
          | ok x =>
              rw [(SalesManager.recordSale_cases g db params).2.2.2 db1 x db2
                hemp' hloop hsave] at hs
              obtain ⟨hst, hit, htot, -⟩ := (SalesManager.recordSaleTail_spec g params
                (SalesManager.mkSale g params) db2).2.2 s hs
              refine ⟨hst, hit, ?_⟩
              rw [htot, hit]
              exact calcTotal_eq_sum (params.items.map SalesManager.mkSaleItem)

/-- C5 witness: a two-unit sale at price 100 returns a completed sale whose
total 200 is the sum of its item subtotals. -/
theorem C5_witness :
    (SalesManager.recordSale gW dbW pW).1 = .ok sW ∧ sW.status = .completed ∧
    sW.total_amount = (sW.items.map SaleItem.subtotal).sum := by
  have h := (C5_recordSale_totals gW dbW pW).2.2 sW (by decide)
  exact ⟨by decide, h.1, h.2.2⟩

/-- C9: whenever `updateStock` fails — insufficient stock, unknown product, or
schema rejection — the store is returned exactly as it was: the error is
decided before any write, so the product record keeps its stock, prices and
`updated_at`. -/
theorem C9_updateStock_failure_writes_nothing (now : String) (db : DB)
    (productId : String) (delta : Int) (e : String)
    (h : (ProductManager.updateStock now db productId delta).1 = .err e) :
    (ProductManager.updateStock now db productId delta).2 = db :=
  ProductManager.updateStock_err_frame now db productId delta e h

/-- C9 witness: a failing decrement leaves the populated store untouched. -/
theorem C9_witness :
    (ProductManager.updateStock nowW dbW uuidB (-5)).2 = dbW :=
  C9_updateStock_failure_writes_nothing nowW dbW uuidB (-5) "Insufficient stock" (by decide)

/-- C10: the sale schema enforces no business invariant across fields: the
concrete sale below has `total_amount = 3` while its only item's subtotal is 7,
and that subtotal is not `quantity * unit_price` (`1 * 5`), yet the schema
accepts it and `save("sales", sale)` persists it. -/
theorem C10_sale_schema_accepts_inconsistent_totals :
    saleValid badSale = true ∧
    badSale.total_amount ≠ (badSale.items.map SaleItem.subtotal).sum ∧
    (∀ i ∈ badSale.items, i.subtotal ≠ i.quantity * i.unit_price) ∧
    saveSale emptyDB badSale = (.ok badSale, { emptyDB with sales := [badSale] }) := by
  refine ⟨by decide, by decide, by decide, by decide⟩

end Shop

namespace Shop

/-- C4: if the stock adjustment of some item fails during `recordSale`, the
call aborts with an error naming that item's product, the sale record is never
persisted (the sales collection is exactly as before), and the decrements
already applied for the items processed earlier in the same call remain
applied — they are not rolled back. -/
theorem C4_recordSale_partial_failure (g : SalesManager.GenEnv) (db : DB)
    (params : SalesManager.RecordSaleParams) (pre : List SaleItem) (bad : SaleItem)
    (rest : List SaleItem) (db₁ : DB) (e0 : String)
    (hsplit : params.items.map SalesManager.mkSaleItem = pre ++ bad :: rest)
    (hpre : SalesManager.deductLoop g.now db pre = (none, db₁))
    (hbad : (ProductManager.updateStock g.now db₁ bad.product_id (-bad.quantity)).1 =
      .err e0) :
    SalesManager.recordSale g db params =
      (.err ("Stock update failed for " ++ bad.product_name), db₁) ∧
    db₁.sales = db.sales ∧
    ((pre.map SaleItem.product_id).Nodup →
      ∀ it ∈ pre, ∀ p, findBy Product.id it.product_id db.products = some p →
        findBy Product.id it.product_id db₁.products =
          some { p with current_stock := p.current_stock - it.quantity,
                        updated_at := g.now }) := by
  have hne : params.items.isEmpty = false := by
    rcases hpi : params.items with _ | ⟨a, l⟩
    · rw [hpi] at hsplit
      simp at hsplit
    · rfl
  have hloop : SalesManager.deductLoop g.now db (params.items.map SalesManager.mkSaleItem) =
      (some ("Stock update failed for " ++ bad.product_name), db₁) := by
    rw [hsplit, SalesManager.deductLoop_append g.now pre (bad :: rest) db db₁ hpre]
    exact SalesManager.deductLoop_fail_at g.now db₁ bad rest e0 hbad
  refine ⟨(SalesManager.recordSale_cases g db params).2.1 _ db₁ hne hloop, ?_, ?_⟩
  · have hf := (SalesManager.deductLoop_frame g.now pre db).1
    rw [hpre] at hf
    exact hf
  · intro hnd it hit p hp
    have := SalesManager.deductLoop_ok_stocks g.now pre db db₁ hnd hpre it hit p hp
    simpa [sub_eq_add_neg] using this

/-- C4 witness: selling 2 Soda (stock 10) and 5 Bread (stock 1) fails on
Bread; the Soda decrement persists and no sale is stored. -/
theorem C4_witness :
    SalesManager.recordSale gW dbW pW4 = (.err "Stock update failed for Bread", dbW1) ∧
    dbW1.sales = dbW.sales := by
  have h := C4_recordSale_partial_failure gW dbW pW4
    [SalesManager.mkSaleItem ⟨prodA, 2, none⟩] (SalesManager.mkSaleItem ⟨prodB, 5, none⟩)
    [] dbW1 "Insufficient stock" (by decide) (by decide) (by decide)
  exact ⟨h.1.trans (by decide), h.2.1⟩

/-- C6: an allowed `reverseSale` persists the sale with status `reversed`
before any stock restoration runs; when restoring some item's stock fails, the
original pre-reversal sale record is persisted back as compensation and the
call returns the stock-restore error naming that item, while the increments
already applied for earlier items in the same call remain applied. -/
theorem C6_reverseSale_order_and_compensation (pd : String → Int) (nowMs : Int)
    (auditId now : String) (db : DB) (saleId : String) (reason staffId : Option String)
    (sale : Sale) (hfind : findBy Sale.id saleId db.sales = some sale)
    (hcan : SalesManager.canReverseSale pd nowMs db saleId = true)
    (hvalid : saleValid sale = true) :
    (findBy Sale.id saleId
        ((saveSale db { sale with status := SaleStatus.reversed }).2).sales =
      some { sale with status := SaleStatus.reversed }) ∧
    (∀ db2, SalesManager.restoreStock now sale
        ((saveSale db { sale with status := SaleStatus.reversed }).2) sale.items =
          (none, db2) →
      ∃ dbf, SalesManager.reverseSale pd nowMs auditId now db saleId reason staffId =
        (.ok { sale with status := SaleStatus.reversed }, dbf)) ∧
    (∀ e db2, SalesManager.restoreStock now sale
        ((saveSale db { sale with status := SaleStatus.reversed }).2) sale.items =
          (some e, db2) →
      SalesManager.reverseSale pd nowMs auditId now db saleId reason staffId =
        (.err e, db2) ∧
      findBy Sale.id saleId db2.sales = some sale) ∧
    (∀ pre bad rest dbp e0, sale.items = pre ++ bad :: rest →
      (pre.map SaleItem.product_id).Nodup →
      SalesManager.restoreStock now sale
        ((saveSale db { sale with status := SaleStatus.reversed }).2) pre = (none, dbp) →
      (ProductManager.updateStock now dbp bad.product_id bad.quantity).1 = .err e0 →
      SalesManager.reverseSale pd nowMs auditId now db saleId reason staffId =
        (.err ("Failed to reverse stock for " ++ bad.product_name),
          (saveSale dbp sale).2) ∧
      (∀ it ∈ pre, ∀ p, findBy Product.id it.product_id
          ((saveSale db { sale with status := SaleStatus.reversed }).2).products = some p →
        findBy Product.id it.product_id ((saveSale dbp sale).2).products =
          some { p with current_stock := p.current_stock + it.quantity,
                        updated_at := now })) := by
  have hvr : saleValid { sale with status := SaleStatus.reversed } = true := by
    rw [saleValid_set_status]
    exact hvalid
  have hsave := saveSale_of_valid db { sale with status := SaleStatus.reversed } hvr
  have hsave' : saveSale db { sale with status := SaleStatus.reversed } =
      (.ok { sale with status := SaleStatus.reversed },
        (saveSale db { sale with status := SaleStatus.reversed }).2) := by
    rw [hsave]
  have hsteps := (SalesManager.reverseSale_steps pd nowMs auditId now db saleId
      reason staffId sale hcan hfind).2 _ _ hsave'
  have hid : saleId = Sale.id { sale with status := SaleStatus.reversed } :=
    (findBy_some_id hfind).symm
  refine ⟨?_, ?_, ?_, ?_⟩
  · rw [hsave]
    simp only
    rw [hid]
    exact findBy_upsertBy_self Sale.id _ db.sales
  · intro db2 hrs
    exact ⟨_, hsteps.2 db2 hrs⟩
  · intro e db2 hrs
    refine ⟨hsteps.1 e db2 hrs, ?_⟩
    obtain ⟨dbx, hdb2⟩ := SalesManager.restoreStock_some_inv now sale sale.items _ e db2 hrs
    rw [hdb2, saveSale_of_valid dbx sale hvalid]
    simp only
    have hid2 : saleId = Sale.id sale := (findBy_some_id hfind).symm
    rw [hid2]
    exact findBy_upsertBy_self Sale.id sale dbx.sales
  · intro pre bad rest dbp e0 hsplit hnd hpre hbad
    have hloop : SalesManager.restoreStock now sale
        ((saveSale db { sale with status := SaleStatus.reversed }).2) sale.items =
        (some ("Failed to reverse stock for " ++ bad.product_name),
          (saveSale dbp sale).2) := by
      have h1 := congrArg
        (SalesManager.restoreStock now sale
          ((saveSale db { sale with status := SaleStatus.reversed }).2)) hsplit
      rw [h1, SalesManager.restoreStock_append now sale pre (bad :: rest) _ dbp hpre]
      exact SalesManager.restoreStock_fail_at now sale dbp bad rest e0 hbad
    refine ⟨hsteps.1 _ _ hloop, ?_⟩
    intro it hit p hp
    have heff := SalesManager.restoreStock_ok_stocks now sale pre _ dbp hnd hpre it hit p hp
    have hfr := (saveSale_frame dbp sale).1
    rw [hfr]
    exact heff

set_option maxRecDepth 20000 in
/-- C6 witness: reversing a sale whose product no longer exists fails on the
restoration of that product, and the original completed sale is persisted
back. -/
theorem C6_witness :
    SalesManager.reverseSale (fun _ => 0) 0 uuidL nowW dbW6 uuidS none none =
      (.err "Failed to reverse stock for Soda",
        (saveSale ((saveSale dbW6 { saleW with status := SaleStatus.reversed }).2)
          saleW).2) := by
  have h := (C6_reverseSale_order_and_compensation (fun _ => 0) 0 uuidL nowW dbW6 uuidS
      none none saleW (by decide) (by decide) (by decide)).2.2.2
      [] itemAW [] ((saveSale dbW6 { saleW with status := SaleStatus.reversed }).2)
      "Product not found" (by decide) (by decide) rfl (by decide)
  exact h.1.trans (by decide)

/-- C7: `canReverseSale` is false exactly when the sale is missing, already
reversed, or older than the configured reversal window (the first settings
record's `reversal_window_hours`, 24 by default); `reverseSale` fails leaving
the state untouched whenever it is false; and after a successful reversal a
second `reverseSale` on the same id fails — the sale never leaves `reversed`. -/
theorem C7_reversal_window_and_no_exit_from_reversed (pd : String → Int) (nowMs : Int)
    (auditId now : String) (db : DB) (saleId : String) (reason staffId : Option String) :
    (SalesManager.canReverseSale pd nowMs db saleId = false ↔
      findBy Sale.id saleId db.sales = none ∨
      (∃ s, findBy Sale.id saleId db.sales = some s ∧
        (s.status = SaleStatus.reversed ∨
          SalesManager.reversalWindowOf db * (1000 * 60 * 60) < nowMs - pd s.date))) ∧
    (SalesManager.canReverseSale pd nowMs db saleId = false →
      SalesManager.reverseSale pd nowMs auditId now db saleId reason staffId =
        (.err "Sale cannot be reversed - outside allowed time window or already reversed",
          db)) ∧
    (∀ s db', SalesManager.reverseSale pd nowMs auditId now db saleId reason staffId =
        (.ok s, db') →
      ∀ pd' nowMs' auditId' now' reason' staffId',
        SalesManager.reverseSale pd' nowMs' auditId' now' db' saleId reason' staffId' =
          (.err "Sale cannot be reversed - outside allowed time window or already reversed",
            db')) := by
  refine ⟨?_, ?_, ?_⟩
  · rcases hf : findBy Sale.id saleId db.sales with _ | s
    · simp [SalesManager.canReverseSale, hf]
    · by_cases hst : s.status = SaleStatus.reversed
      · constructor
        · intro _
          exact Or.inr ⟨s, rfl, Or.inl hst⟩
        · intro _
          simp [SalesManager.canReverseSale, hf, hst]
      · have hcr : SalesManager.canReverseSale pd nowMs db saleId =
            decide (nowMs - pd s.date ≤
              SalesManager.reversalWindowOf db * (1000 * 60 * 60)) := by
          simp [SalesManager.canReverseSale, hf, hst]
        rw [hcr]
        constructor
        · intro hfalse
          exact Or.inr ⟨s, rfl, Or.inr (not_le.mp (of_decide_eq_false hfalse))⟩
        · rintro (hnone | ⟨s', hs', hcase⟩)
          · cases hnone
          · injection hs' with hs'
            subst hs'
            rcases hcase with hrev | hwin
            · exact absurd hrev hst
            · exact decide_eq_false (not_le.mpr hwin)
  · intro h
    exact SalesManager.reverseSale_not_allowed pd nowMs auditId now db saleId
      reason staffId h
  · intro s db' hrev pd' nowMs' auditId' now' reason' staffId'
    obtain ⟨hfind', hstatus⟩ := SalesManager.reverseSale_ok_inv pd nowMs auditId now db
      saleId reason staffId s db' hrev
    have hcan' : SalesManager.canReverseSale pd' nowMs' db' saleId = false := by
      simp [SalesManager.canReverseSale, hfind', hstatus]
    exact SalesManager.reverseSale_not_allowed pd' nowMs' auditId' now' db' saleId
      reason' staffId' hcan'

set_option maxRecDepth 20000 in
/-- C7 witness: with the default 24-hour window, a sale 25 hours old cannot be
reversed; `reverseSale` fails and the state is unchanged. -/
theorem C7_witness :
    SalesManager.reverseSale (fun _ => 0) 90000000 uuidL nowW dbW6 uuidS none none =
      (.err "Sale cannot be reversed - outside allowed time window or already reversed",
        dbW6) :=
  (C7_reversal_window_and_no_exit_from_reversed (fun _ => 0) 90000000 uuidL nowW dbW6
    uuidS none none).2.1 (by decide)

/-- C8: across every sequence of `recordSale` calls against one store, the
receipt numbers issued to sales are strictly increasing in issuance order
(hence unique; gaps from unconsumed counter increments are permitted), and
every receipt attached to a returned sale carries the freshly allocated
counter value, rendered as `R-` plus the zero-padded number. -/
theorem C8_receipt_numbers_strictly_increasing
    (calls : List (SalesManager.GenEnv × SalesManager.RecordSaleParams)) (db : DB) :
    List.Pairwise (· < ·) (SalesManager.issuedReceiptNumbers db calls) ∧
    (∀ g params s rc, (SalesManager.recordSale g db params).1 = .ok s →
      s.receipt = some rc →
      rc.number = "R-" ++ SalesManager.pad6 (CounterManager.getValue db "receipts" + 1)) :=
  ⟨SalesManager.issuedReceiptNumbers_pairwise calls db,
   fun g params s rc hs hrc =>
     ((SalesManager.recordSale_counter_step g db params).2 s hs).2 rc hrc⟩

set_option maxRecDepth 20000 in
/-- C8 witness: the first recorded sale carries receipt number 1 rendered as
`R-000001`, and the numbers collected over a concrete two-call run are
strictly increasing. -/
theorem C8_witness :
    List.Pairwise (· < ·) (SalesManager.issuedReceiptNumbers dbW [(gW, pW), (gW2, pW)]) ∧
    rcW.number = "R-" ++ SalesManager.pad6 (CounterManager.getValue dbW "receipts" + 1) :=
  ⟨(C8_receipt_numbers_strictly_increasing [(gW, pW), (gW2, pW)] dbW).1,
   (C8_receipt_numbers_strictly_increasing [(gW, pW), (gW2, pW)] dbW).2 gW pW sW rcW
     (by decide) (by decide)⟩

end Shop

namespace Shop

set_option maxRecDepth 400000 in
/-- C1: the snapshot integrity invariant does NOT hold for freshly aggregated
snapshots.  `aggregateAllData` computes the stored checksum over
`JSON.stringify(snapshot)` while the snapshot still carries its `checksum`
field (holding `""`), but `validateBackupChecksum` recomputes the digest over
the serialization with the `checksum` key removed.  The two serializations
differ, so validation of a snapshot freshly aggregated from the empty store
returns false — on the crypto (SHA-256) path and on the fallback-hash path
alike.  The claim (and the spec's invariant `checksum == digest(snapshot
minus checksum field)`) says it must return true. -/
theorem C1_fresh_snapshot_never_validates :
    validateBackupChecksum true (aggregateAllData true tsW emptyDB) = false ∧
    validateBackupChecksum false (aggregateAllData false tsW emptyDB) = false := by
  constructor
  · decide
  · decide

end Shop
